import Mathlib

/-!
Shallow embedding of mp3_lyrics_adder (src/lyrics_adder.py) and proofs about
the claims of its specification.

Modelling conventions:
* Python strings are modelled as `List Char` inside the text-normalizer
  (`clean_lyrics`), and as Lean `String` elsewhere.  Character classes
  (`\W`, `[a-z]` under `re.IGNORECASE`, `str.lower`, `str.strip`) are modelled
  at ASCII granularity, matching the provider text the program manipulates.
* `str.splitlines` is modelled as splitting at LF only (Python also splits at
  other, rarer line boundaries); a trailing terminator produces no empty last
  line, exactly as in Python.
* Python truthiness of optional strings (`if alt_artist:`, `if not title`,
  `if lyrics:`) is modelled by `truthyS`: `None` and the empty string are
  falsy.
* Network calls (Genius search, lyrics.ovh GET) are modelled as oracle
  functions `String → String → Option String`; `none` covers both an
  exception caught inside the corresponding helper and an absent result,
  because the source treats those identically (continue with next variant).
-/

namespace LyricsAdder

/-- Characters treated as whitespace by Python `str.strip`, ASCII fragment. -/
def pySpace (c : Char) : Bool :=
  c = ' ' || c = '\t' || c = '\n' || c = '\r' || c = '\x0b' || c = '\x0c'

/-- Trim elements satisfying `p` from both ends of a list; `str.strip` at the
character level, and also the two trimming `while` loops of `clean_lyrics` at
the line level. -/
def trimEnds (p : α → Bool) (l : List α) : List α :=
  List.rdropWhile p (List.dropWhile p l)

/-- Python `str.strip` (ASCII whitespace model). -/
def pyStrip (l : List Char) : List Char :=
  trimEnds pySpace l

/-- Python `str.lower` (ASCII model). -/
def pyLower (l : List Char) : List Char :=
  l.map Char.toLower

/-- Model of `line.split("||", 1)`: `some (before, after)` at the first
occurrence of `"||"`, `none` when the separator does not occur. -/
def splitBB : List Char → Option (List Char × List Char)
  | [] => none
  | [_] => none
  | c :: d :: rest =>
    if c = '|' && d = '|' then some ([], rest)
    else (splitBB (d :: rest)).map fun q => (c :: q.1, q.2)

/-- Whether `"||"` occurs in the string; `"||" in line`. -/
def hasBB : List Char → Bool
  | [] => false
  | [_] => false
  | c :: d :: rest => (c = '|' && d = '|') || hasBB (d :: rest)

/-- Model of `re.fullmatch(r"(?i)[a-z]{2,3}", s)`: two or three ASCII
letters. -/
def isLangCode (l : List Char) : Bool :=
  (l.length = 2 || l.length = 3) && l.all (fun c => c.isAlpha)

/-- Python word character (`\w`), ASCII model: letters, digits, underscore. -/
def isWordC (c : Char) : Bool :=
  c.isAlphanum || c = '_'

/-- Head pattern of `re.sub(r"(?i)^\W*[a-z]{2,3}\|\|", "", line)` after the
maximal run of non-word characters has been skipped: two or three ASCII
letters followed by `"||"`; returns the remainder after the match.  The
regex engine behaves exactly this way: `\W*` is forced to the maximal
non-word run (a shorter run would leave a non-word character where a letter
is required), and the greedy `{2,3}` is unambiguous because a `'|'` is never
a letter. -/
def langBarMatch : List Char → Option (List Char)
  | a :: b :: '|' :: '|' :: tail =>
    if a.isAlpha && b.isAlpha then some tail else none
  | a :: b :: c :: '|' :: '|' :: tail =>
    if a.isAlpha && b.isAlpha && c.isAlpha then some tail else none
  | _ => none

/-- Model of `re.sub(r"(?i)^\W*[a-z]{2,3}\|\|", "", line)`. -/
def subLang (l : List Char) : List Char :=
  match langBarMatch (l.dropWhile fun c => !isWordC c) with
  | some tail => tail
  | none => l

/-- The `split("||", 1)` step of the per-line transformation: when the text
before the first `"||"` is (after stripping) a 2-3 letter language code,
keep only the stripped text after it. -/
def step2 (line : List Char) : List Char :=
  match splitBB line with
  | some (pre, rest) => if isLangCode (pyStrip pre) then pyStrip rest else line
  | none => line

/-- The per-line transformation applied to an already-stripped line: the
`split("||", 1)` step, then the regex substitution, then strip. -/
def transformCore (t : List Char) : List Char :=
  pyStrip (subLang (step2 t))

/-- The per-line transformation of `clean_lyrics`: strip, drop a recognized
language-code ` ||` preface via `split`, then the regex substitution, then
strip again. -/
def transformLine (l : List Char) : List Char :=
  transformCore (pyStrip l)

/-- Model of the Python substring test `needle in hay`. -/
def containsSub (needle : List Char) : List Char → Bool
  | [] => needle.isEmpty
  | c :: rest => needle.isPrefixOf (c :: rest) || containsSub needle rest

/-- Boilerplate markers whose presence anywhere in the lowercased line drops
the line. -/
def boilerTags : List (List Char) :=
  ["contributors".toList, "translations".toList, "paroles de la chanson".toList]

/-- Whether the lowercased line is dropped (`continue` in the source). -/
def isDropLine (lower : List Char) : Bool :=
  boilerTags.any (fun t => containsSub t lower)

/-- Whether the lowercased line stops processing (`break` in the source). -/
def isBreakLine (lower : List Char) : Bool :=
  ("you might also like".toList).isPrefixOf lower

/-- The line-filtering loop of `clean_lyrics`. -/
def cleanLines : List (List Char) → List (List Char)
  | [] => []
  | l :: ls =>
    let line := transformLine l
    let lower := pyLower line
    if isDropLine lower then cleanLines ls
    else if isBreakLine lower then []
    else line :: cleanLines ls

/-- Whether a line is blank after stripping (`not line.strip()`). -/
def isBlankL (l : List Char) : Bool :=
  pyStrip l = []

/-- Split at LF, keeping empty pieces; helper for `pySplitlines`. -/
def splitNL : List Char → List (List Char)
  | [] => [[]]
  | c :: cs =>
    if c = '\n' then [] :: splitNL cs
    else
      match splitNL cs with
      | [] => [[c]]
      | h :: t => (c :: h) :: t

/-- Model of `str.splitlines` (LF model): empty string gives no lines, and a
trailing terminator produces no trailing empty line. -/
def pySplitlines (s : List Char) : List (List Char) :=
  if s = [] then []
  else if (splitNL s).getLast? = some [] then (splitNL s).dropLast
  else splitNL s

/-- Model of `"\n".join(lines)`. -/
def joinNL : List (List Char) → List Char
  | [] => []
  | [l] => l
  | l :: ls => l ++ '\n' :: joinNL ls

/-- The `clean_lyrics` function of the source, at the `List Char` level. -/
def cleanL (raw : List Char) : List Char :=
  joinNL (trimEnds isBlankL (cleanLines (pySplitlines raw)))

/-- Source function `clean_lyrics`: strip unwanted metadata/headers/footers
from lyrics. -/
def clean_lyrics (raw : String) : String :=
  (cleanL raw.toList).asString

/-- Truthiness of an optional Python string: `None` and `""` are falsy. -/
def truthyS : Option String → Bool
  | none => false
  | some s => s ≠ ""

/-- The ordered list of (title, artist) query variants built at the top of
`get_raw_lyrics`. -/
def mkVariants (title artist : String) (alt_title alt_artist : Option String) :
    List (String × String) :=
  [(title, artist)]
    ++ (if truthyS alt_artist then [(title, alt_artist.getD "")] else [])
    ++ (if truthyS alt_title then [(alt_title.getD "", artist)] else [])
    ++ (if truthyS alt_title && truthyS alt_artist then
          [(alt_title.getD "", alt_artist.getD "")] else [])

/-- One provider loop of `get_raw_lyrics`: try each variant in order against
the query oracle `q`, stopping at the first truthy (non-`None`, non-empty)
result.  Returns the result together with the list of queries issued, in
order.  `none` from the oracle covers both a caught per-variant exception and
an absent result, which the source treats identically. -/
def tryProvider (q : String → String → Option String) :
    List (String × String) → Option String × List (String × String)
  | [] => (none, [])
  | (t, a) :: rest =>
    match q t a with
    | some s =>
      if s ≠ "" then (some s, [(t, a)])
      else
        let r := tryProvider q rest
        (r.1, (t, a) :: r.2)
    | none =>
      let r := tryProvider q rest
      (r.1, (t, a) :: r.2)

/-- Output of `get_raw_lyrics`: the raw lyrics and provenance returned by the
source function, instrumented with the queries issued to each provider. -/
structure ResolveOut where
  raw : Option String
  source : Option String
  gq : List (String × String)
  oq : List (String × String)
deriving DecidableEq

/-- The Genius half of `get_raw_lyrics`: the loop guarded by
`if use_genius and genius:`.  When the guard fails the source only logs, so
the result is no lyrics and no queries. -/
def geniusPart (genius : Option (String → String → Option String))
    (use_genius : Bool) (variants : List (String × String)) :
    Option String × List (String × String) :=
  match use_genius, genius with
  | true, some g => tryProvider g variants
  | _, _ => (none, [])

/-- Source function `get_raw_lyrics`.  The Genius client is modelled as an
optional query oracle (the `genius` parameter, `None` when no client was
constructed); the lyrics.ovh helper `fetch_lyrics_ovh` is modelled by the
oracle `ovh`. -/
def get_raw_lyrics (ovh : String → String → Option String)
    (title artist : String) (genius : Option (String → String → Option String))
    (use_genius : Bool) (alt_title alt_artist : Option String) : ResolveOut :=
  let variants := mkVariants title artist alt_title alt_artist
  let gOut := geniusPart genius use_genius variants
  match gOut.1 with
  | some s => ⟨some s, some "genius", gOut.2, []⟩
  | none =>
    let oOut := tryProvider ovh variants
    match oOut.1 with
    | some s => ⟨some s, some "ovh", gOut.2, oOut.2⟩
    | none => ⟨none, none, gOut.2, oOut.2⟩

/-- Model of a mutagen text frame (TIT2/TALB/TPE1/TPE2): a list of strings.
A present frame object is truthy in Python regardless of its content
(mutagen text frames define neither a boolean nor a length protocol), so the
guards `if tags.get(f)` in the source pass for any present frame, and
`frame.text[0]` raises IndexError when the list is empty. -/
structure TextFrameM where
  text : List String
deriving DecidableEq

/-- Model of a mutagen USLT (unsynchronized lyrics) frame.  In mutagen a USLT
frame is keyed by its language and description. -/
structure USLTFrameM where
  lang : String
  desc : String
  text : String
deriving DecidableEq

/-- Model of the ID3 tag container: the four text frames read by the source,
the USLT frames, and an opaque list standing for all remaining frames (which
the source never touches). -/
structure ID3Tags where
  tit2 : Option TextFrameM
  talb : Option TextFrameM
  tpe1 : Option TextFrameM
  tpe2 : Option TextFrameM
  uslt : List USLTFrameM
  others : List String
deriving DecidableEq

/-- The empty container created by `audio.add_tags()`. -/
def emptyTags : ID3Tags :=
  ⟨none, none, none, none, [], []⟩

/-- Model of `any(isinstance(f, USLT) for f in tags.values())`. -/
def hasUSLT (tags : ID3Tags) : Bool :=
  !tags.uslt.isEmpty

/-- Model of `tags.add(frame)` for a USLT frame: mutagen stores frames in a
dict keyed by HashKey (`USLT:desc:lang`), so `add` replaces the frame with
the same language and description and appends the frame otherwise; frames
with other keys are untouched. -/
def addUSLT (tags : ID3Tags) (fr : USLTFrameM) : ID3Tags :=
  { tags with uslt :=
      if tags.uslt.any (fun g => g.lang = fr.lang && g.desc = fr.desc) then
        tags.uslt.map (fun g => if g.lang = fr.lang && g.desc = fr.desc then fr else g)
      else tags.uslt ++ [fr] }

/-- Model of `next((tags.get(f).text[0] for f in fields if tags.get(f)), None)`:
take the first present frame; `.error ()` models the IndexError raised by
`text[0]` when that frame's text list is empty. -/
def firstFieldText : List (Option TextFrameM) → Except Unit (Option String)
  | [] => .ok none
  | none :: rest => firstFieldText rest
  | some fr :: _ =>
    match fr.text with
    | [] => .error ()
    | t :: _ => .ok (some t)

/-- Model of `tags.get(f).text[0] if tags.get(f) else None` (the alt_title and
alt_artist reads); `.error ()` models the IndexError on an empty text list. -/
def altFieldText : Option TextFrameM → Except Unit (Option String)
  | none => .ok none
  | some fr =>
    match fr.text with
    | [] => .error ()
    | t :: _ => .ok (some t)

/-- Model of one MP3 file as seen by `add_lyrics_to_file`: whether
`MP3(path, ID3=ID3)` parses, the tag container on disk (`none` when the file
has no ID3 header, in which case the source calls `add_tags`), and whether
`audio.save()` succeeds. -/
structure FileModel where
  openOk : Bool
  tags : Option ID3Tags
  saveOk : Bool
deriving DecidableEq

/-- Everything observable about one run of `add_lyrics_to_file`: its return
value, whether a Python exception escaped the function (`exn`), the
intermediate values of the source's locals, the queries issued to each
provider, whether `audio.save()` was reached, the in-memory container at the
end, and the on-disk container after the job. -/
structure JobResult where
  exn : Bool
  ret : Bool
  titleV : Option String
  artistV : Option String
  raw : Option String
  src : Option String
  cleaned : Option String
  gq : List (String × String)
  oq : List (String × String)
  saveAttempted : Bool
  memTags : ID3Tags
  disk : Option ID3Tags
deriving DecidableEq

/-- Source function `add_lyrics_to_file`.  The file at `path` is modelled by
`file`; the Genius client and the lyrics.ovh endpoint are modelled by the
`genius` and `ovh` oracles.  A result with `exn = true` models a Python
exception escaping the function (only the metadata reads can raise one: the
source's try/except blocks cover only open and save); the remaining fields
then describe the state at the moment of the raise. -/
def add_lyrics_to_file (ovh : String → String → Option String)
    (file : FileModel) (genius : Option (String → String → Option String))
    (use_genius : Bool) (overwrite : Bool) : JobResult :=
  if !file.openOk then
    { exn := false, ret := false, titleV := none, artistV := none, raw := none,
      src := none, cleaned := none, gq := [], oq := [], saveAttempted := false,
      memTags := file.tags.getD emptyTags, disk := file.tags }
  else
    let tags := file.tags.getD emptyTags
    if !overwrite && hasUSLT tags then
      { exn := false, ret := false, titleV := none, artistV := none, raw := none,
        src := none, cleaned := none, gq := [], oq := [], saveAttempted := false,
        memTags := tags, disk := file.tags }
    else
      match firstFieldText [tags.tit2, tags.talb] with
      | .error _ =>
        { exn := true, ret := false, titleV := none, artistV := none, raw := none,
          src := none, cleaned := none, gq := [], oq := [], saveAttempted := false,
          memTags := tags, disk := file.tags }
      | .ok title =>
      match firstFieldText [tags.tpe1, tags.tpe2] with
      | .error _ =>
        { exn := true, ret := false, titleV := title, artistV := none, raw := none,
          src := none, cleaned := none, gq := [], oq := [], saveAttempted := false,
          memTags := tags, disk := file.tags }
      | .ok artist =>
      if !truthyS title || !truthyS artist then
        { exn := false, ret := false, titleV := title, artistV := artist, raw := none,
          src := none, cleaned := none, gq := [], oq := [], saveAttempted := false,
          memTags := tags, disk := file.tags }
      else
      match altFieldText tags.talb with
      | .error _ =>
        { exn := true, ret := false, titleV := title, artistV := artist, raw := none,
          src := none, cleaned := none, gq := [], oq := [], saveAttempted := false,
          memTags := tags, disk := file.tags }
      | .ok alt_title =>
      match altFieldText tags.tpe2 with
      | .error _ =>
        { exn := true, ret := false, titleV := title, artistV := artist, raw := none,
          src := none, cleaned := none, gq := [], oq := [], saveAttempted := false,
          memTags := tags, disk := file.tags }
      | .ok alt_artist =>
      let r := get_raw_lyrics ovh (title.getD "") (artist.getD "") genius use_genius
        alt_title alt_artist
      if !truthyS r.raw then
        { exn := false, ret := false, titleV := title, artistV := artist, raw := r.raw,
          src := r.source, cleaned := none, gq := r.gq, oq := r.oq,
          saveAttempted := false, memTags := tags, disk := file.tags }
      else
        let cleaned := clean_lyrics (r.raw.getD "")
        if cleaned = "" then
          { exn := false, ret := false, titleV := title, artistV := artist, raw := r.raw,
            src := r.source, cleaned := some cleaned, gq := r.gq, oq := r.oq,
            saveAttempted := false, memTags := tags, disk := file.tags }
        else
          let tags1 := addUSLT tags ⟨"eng", "", cleaned⟩
          { exn := false, ret := file.saveOk, titleV := title, artistV := artist,
            raw := r.raw, src := r.source, cleaned := some cleaned, gq := r.gq,
            oq := r.oq, saveAttempted := true, memTags := tags1,
            disk := if file.saveOk then some tags1 else file.tags }

/-- Model of the filesystem as seen by `process_path`: `os.path.isdir`,
`os.path.isfile` (never consulted by the source — recorded here so that
independence from it can be stated), and `os.walk` flattened to the ordered
list of (dirpath, filename) pairs. -/
structure FileSys where
  isdir : String → Bool
  isfile : String → Bool
  walk : String → List (String × String)

/-- Model of `os.path.join(dp, f)`. -/
def joinPath (dp f : String) : String :=
  dp ++ "/" ++ f

/-- Python `str.lower` on a Lean `String` (ASCII model). -/
def lowerS (s : String) : String :=
  (s.toList.map Char.toLower).asString

/-- Python `str.endswith` as a suffix test on the character lists. -/
def endsWithS (s suff : String) : Bool :=
  suff.toList.isSuffixOf s.toList

/-- The job-enumeration part of source function `process_path` (lines
151-164): `some jobs` is the list of file paths submitted to the worker
pool, in order; `none` models the `logger.error("Invalid path."); return`
branch (a configuration error, no jobs). -/
def process_path (fs : FileSys) (root : String) : Option (List String) :=
  if fs.isdir root then
    some (((fs.walk root).filter fun df => endsWithS (lowerS df.2) ".mp3").map
      fun df => joinPath df.1 df.2)
  else if endsWithS (lowerS root) ".mp3" then some [root]
  else none

/-- Whether one query to oracle `q` yields a truthy result, i.e. whether the
provider loop stops at this variant. -/
def isHit (q : String → String → Option String) (v : String × String) : Bool :=
  match q v.1 v.2 with
  | some s => s ≠ ""
  | none => false

/-- Whether a possibly-present text frame can be read without an IndexError:
absent, or present with a non-empty text list. -/
def frameOk : Option TextFrameM → Bool
  | none => true
  | some fr => !fr.text.isEmpty

/-- Whether all four text frames of a container can be read without an
IndexError. -/
def wellFormedTags (t : ID3Tags) : Bool :=
  frameOk t.tit2 && frameOk t.talb && frameOk t.tpe1 && frameOk t.tpe2

/-- Modelled from the spec: the value "from the first populated field" of an
ordered preference list — the first present frame's first text entry.  Used
to state what the metadata reader is claimed to produce. -/
def specFirstFieldHead : List (Option TextFrameM) → Option String
  | [] => none
  | none :: rest => specFirstFieldHead rest
  | some fr :: _ => fr.text.head?

/-- Whether a string contains at most one occurrence of `"||"`: either none,
or one with no further occurrence after it. -/
def atMostOneBB (l : List Char) : Bool :=
  match splitBB l with
  | none => true
  | some q => !hasBB q.2

/-- Hypothesis of the amended idempotence claim: every line of the input,
once stripped of surrounding whitespace, contains at most one occurrence of
the `"||"` separator. -/
def linesAtMostOneBB (s : String) : Bool :=
  (pySplitlines s.toList).all fun l => atMostOneBB (pyStrip l)

/-- The provider loop issues exactly the queries up to and including the
first hit (all of them when no variant hits), and returns that hit's
result. -/
theorem tryProvider_eq (q : String → String → Option String)
    (vs : List (String × String)) :
    tryProvider q vs
      = ((vs.dropWhile fun v => !isHit q v).head?.bind fun v => q v.1 v.2,
         (vs.takeWhile fun v => !isHit q v)
           ++ (vs.dropWhile fun v => !isHit q v).take 1) := by
  induction vs with
  | nil => simp [tryProvider]
  | cons v rest ih =>
    obtain ⟨t, a⟩ := v
    cases hq : q t a with
    | none =>
      have hhit : isHit q (t, a) = false := by simp [isHit, hq]
      simp [tryProvider, hq, hhit, ih]
    | some s =>
      by_cases hs : s = ""
      · subst hs
        have hhit : isHit q (t, a) = false := by simp [isHit, hq]
        simp [tryProvider, hq, hhit, ih]
      · have hhit : isHit q (t, a) = true := by simp [isHit, hq, hs]
        simp [tryProvider, hq, hs, hhit]

/-- When no variant hits, the provider loop queried every variant. -/
theorem tryProvider_none (q : String → String → Option String)
    (vs : List (String × String)) (h : (tryProvider q vs).1 = none) :
    (tryProvider q vs).2 = vs := by
  rw [tryProvider_eq] at h ⊢
  cases hd : vs.dropWhile (fun v => !isHit q v) with
  | nil =>
    have hsplit := List.takeWhile_append_dropWhile (p := fun v => !isHit q v) (l := vs)
    rw [hd] at hsplit
    simpa [hd] using hsplit
  | cons v₀ rest =>
    exfalso
    have hne : vs.dropWhile (fun v => !isHit q v) ≠ [] := by rw [hd]; simp
    have hhd := List.head_dropWhile_not (fun v => !isHit q v) vs hne
    have hv₀ : (vs.dropWhile fun v => !isHit q v).head hne = v₀ := by
      simp [hd]
    rw [hv₀] at hhd
    have hhit : isHit q v₀ = true := by simpa using hhd
    simp only [hd, List.head?_cons, Option.some_bind] at h
    cases hq : q v₀.1 v₀.2 with
    | none => simp [isHit, hq] at hhit
    | some s => rw [hq] at h; exact Option.noConfusion h

/-- With the primary provider disabled (no token, or no client object), the
Genius half of the resolver does nothing. -/
theorem geniusPart_disabled (g : Option (String → String → Option String))
    (ug : Bool) (vs : List (String × String)) (h : ug = false ∨ g = none) :
    geniusPart g ug vs = (none, []) := by
  rcases h with h | h
  · subst h; rfl
  · subst h; cases ug <;> rfl

/-- The Genius queries of a resolver run are those of the Genius half. -/
theorem get_raw_lyrics_gq (ovh : String → String → Option String)
    (t a : String) (g : Option (String → String → Option String)) (ug : Bool)
    (t2 a2 : Option String) :
    (get_raw_lyrics ovh t a g ug t2 a2).gq
      = (geniusPart g ug (mkVariants t a t2 a2)).2 := by
  simp only [get_raw_lyrics]
  cases h : (geniusPart g ug (mkVariants t a t2 a2)).1 with
  | none => cases h2 : (tryProvider ovh (mkVariants t a t2 a2)).1 <;> simp [h, h2]
  | some s => simp [h]

/-- The lyrics.ovh queries of a resolver run: none when Genius succeeded,
otherwise those of the fallback loop. -/
theorem get_raw_lyrics_oq (ovh : String → String → Option String)
    (t a : String) (g : Option (String → String → Option String)) (ug : Bool)
    (t2 a2 : Option String) :
    (get_raw_lyrics ovh t a g ug t2 a2).oq
      = (match (geniusPart g ug (mkVariants t a t2 a2)).1 with
         | some _ => []
         | none => (tryProvider ovh (mkVariants t a t2 a2)).2) := by
  simp only [get_raw_lyrics]
  cases h : (geniusPart g ug (mkVariants t a t2 a2)).1 with
  | none => cases h2 : (tryProvider ovh (mkVariants t a t2 a2)).1 <;> simp [h, h2]
  | some s => simp [h]

/-- The raw lyrics of a resolver run: the Genius result when the Genius half
hit, otherwise the fallback result. -/
theorem get_raw_lyrics_raw (ovh : String → String → Option String)
    (t a : String) (g : Option (String → String → Option String)) (ug : Bool)
    (t2 a2 : Option String) :
    (get_raw_lyrics ovh t a g ug t2 a2).raw
      = (match (geniusPart g ug (mkVariants t a t2 a2)).1 with
         | some s => some s
         | none => (tryProvider ovh (mkVariants t a t2 a2)).1) := by
  simp only [get_raw_lyrics]
  cases h : (geniusPart g ug (mkVariants t a t2 a2)).1 with
  | none => cases h2 : (tryProvider ovh (mkVariants t a t2 a2)).1 <;> simp [h, h2]
  | some s => simp [h]

/-- Claim C2: the resolver builds the variant list in the order (T,A),
(T,A2) when A2 is present, (T2,A) when T2 is present, (T2,A2) when both are
present, and each provider loop issues queries in exactly that order,
stopping at the first variant whose result is non-empty and issuing no
further queries to that provider. -/
theorem c2_variant_order_and_short_circuit
    (ovh gf : String → String → Option String) (t a : String)
    (t2 a2 : Option String) :
    (truthyS a2 = true → truthyS t2 = true →
        mkVariants t a t2 a2
          = [(t, a), (t, a2.getD ""), (t2.getD "", a), (t2.getD "", a2.getD "")])
  ∧ (truthyS a2 = true → truthyS t2 = false →
        mkVariants t a t2 a2 = [(t, a), (t, a2.getD "")])
  ∧ (truthyS a2 = false → truthyS t2 = true →
        mkVariants t a t2 a2 = [(t, a), (t2.getD "", a)])
  ∧ (truthyS a2 = false → truthyS t2 = false → mkVariants t a t2 a2 = [(t, a)])
  ∧ (get_raw_lyrics ovh t a (some gf) true t2 a2).gq
      = ((mkVariants t a t2 a2).takeWhile fun v => !isHit gf v)
        ++ ((mkVariants t a t2 a2).dropWhile fun v => !isHit gf v).take 1
  ∧ ((tryProvider gf (mkVariants t a t2 a2)).1 = none →
        (get_raw_lyrics ovh t a (some gf) true t2 a2).oq
          = ((mkVariants t a t2 a2).takeWhile fun v => !isHit ovh v)
            ++ ((mkVariants t a t2 a2).dropWhile fun v => !isHit ovh v).take 1)
  ∧ (∀ s, (tryProvider gf (mkVariants t a t2 a2)).1 = some s →
        (get_raw_lyrics ovh t a (some gf) true t2 a2).oq = []) := by
  refine ⟨?_, ?_, ?_, ?_, ?_, ?_, ?_⟩
  · intro h1 h2; simp [mkVariants, h1, h2]
  · intro h1 h2; simp [mkVariants, h1, h2]
  · intro h1 h2; simp [mkVariants, h1, h2]
  · intro h1 h2; simp [mkVariants, h1, h2]
  · rw [get_raw_lyrics_gq]
    show (tryProvider gf (mkVariants t a t2 a2)).2 = _
    rw [tryProvider_eq]
  · intro h
    rw [get_raw_lyrics_oq]
    show (match (tryProvider gf (mkVariants t a t2 a2)).1 with
          | some _ => ([] : List (String × String))
          | none => (tryProvider ovh (mkVariants t a t2 a2)).2) = _
    rw [h, tryProvider_eq]
  · intro s h
    rw [get_raw_lyrics_oq]
    show (match (tryProvider gf (mkVariants t a t2 a2)).1 with
          | some _ => ([] : List (String × String))
          | none => (tryProvider ovh (mkVariants t a t2 a2)).2) = _
    rw [h]

/-- Witness for C2 at concrete inputs. -/
theorem c2_variant_order_and_short_circuit_witness :
    mkVariants "T" "A" (some "T2") (some "A2")
        = [("T", "A"), ("T", "A2"), ("T2", "A"), ("T2", "A2")]
      ∧ (get_raw_lyrics (fun _ _ => some "L") "T" "A" (some fun _ _ => none) true
            (some "T2") (some "A2")).oq
        = ((mkVariants "T" "A" (some "T2") (some "A2")).takeWhile
              fun v => !isHit (fun _ _ => some "L") v)
          ++ ((mkVariants "T" "A" (some "T2") (some "A2")).dropWhile
              fun v => !isHit (fun _ _ => some "L") v).take 1 := by
  have h := c2_variant_order_and_short_circuit (fun _ _ => some "L")
    (fun _ _ => none) "T" "A" (some "T2") (some "A2")
  exact ⟨h.1 (by decide) (by decide), h.2.2.2.2.2.1 (by decide)⟩

/-- Claim C9: when the primary provider is disabled (no token or no client),
no Genius query is issued and every variant is attempted against the
fallback in order, stopping at the first success; when the primary provider
runs and yields nothing, it was queried on every variant and the fallback is
then tried on every variant in the same order, stopping at the first
success. -/
theorem c9_fallback_order (ovh : String → String → Option String)
    (g : Option (String → String → Option String)) (ug : Bool)
    (t a : String) (t2 a2 : Option String) :
    (ug = false ∨ g = none →
        (get_raw_lyrics ovh t a g ug t2 a2).gq = []
      ∧ (get_raw_lyrics ovh t a g ug t2 a2).oq
          = ((mkVariants t a t2 a2).takeWhile fun v => !isHit ovh v)
            ++ ((mkVariants t a t2 a2).dropWhile fun v => !isHit ovh v).take 1
      ∧ (get_raw_lyrics ovh t a g ug t2 a2).raw
          = ((mkVariants t a t2 a2).dropWhile fun v => !isHit ovh v).head?.bind
              fun v => ovh v.1 v.2)
  ∧ (∀ gf, g = some gf → ug = true →
      (tryProvider gf (mkVariants t a t2 a2)).1 = none →
        (get_raw_lyrics ovh t a g ug t2 a2).gq = mkVariants t a t2 a2
      ∧ (get_raw_lyrics ovh t a g ug t2 a2).oq
          = ((mkVariants t a t2 a2).takeWhile fun v => !isHit ovh v)
            ++ ((mkVariants t a t2 a2).dropWhile fun v => !isHit ovh v).take 1
      ∧ (get_raw_lyrics ovh t a g ug t2 a2).raw
          = ((mkVariants t a t2 a2).dropWhile fun v => !isHit ovh v).head?.bind
              fun v => ovh v.1 v.2) := by
  constructor
  · intro hdis
    have hgp := geniusPart_disabled g ug (mkVariants t a t2 a2) hdis
    refine ⟨?_, ?_, ?_⟩
    · rw [get_raw_lyrics_gq, hgp]
    · rw [get_raw_lyrics_oq, hgp]
      show (tryProvider ovh (mkVariants t a t2 a2)).2 = _
      rw [tryProvider_eq]
    · rw [get_raw_lyrics_raw, hgp]
      show (tryProvider ovh (mkVariants t a t2 a2)).1 = _
      rw [tryProvider_eq]
  · intro gf hg hug hnone
    subst hg; subst hug
    have hgp : geniusPart (some gf) true (mkVariants t a t2 a2)
        = tryProvider gf (mkVariants t a t2 a2) := rfl
    refine ⟨?_, ?_, ?_⟩
    · rw [get_raw_lyrics_gq, hgp]
      exact tryProvider_none gf _ hnone
    · rw [get_raw_lyrics_oq, hgp, hnone]
      show (tryProvider ovh (mkVariants t a t2 a2)).2 = _
      rw [tryProvider_eq]
    · rw [get_raw_lyrics_raw, hgp, hnone]
      show (tryProvider ovh (mkVariants t a t2 a2)).1 = _
      rw [tryProvider_eq]

/-- Witness for C9 at concrete inputs. -/
theorem c9_fallback_order_witness :
    (get_raw_lyrics (fun _ _ => some "L") "T" "A" none false (some "T2") none).gq
        = []
      ∧ (get_raw_lyrics (fun _ _ => some "L") "T" "A" none false (some "T2")
            none).oq
        = ((mkVariants "T" "A" (some "T2") none).takeWhile
              fun v => !isHit (fun _ _ => some "L") v)
          ++ ((mkVariants "T" "A" (some "T2") none).dropWhile
              fun v => !isHit (fun _ _ => some "L") v).take 1
      ∧ (get_raw_lyrics (fun _ _ => some "L") "T" "A" none false (some "T2")
            none).raw
        = ((mkVariants "T" "A" (some "T2") none).dropWhile
              fun v => !isHit (fun _ _ => some "L") v).head?.bind
            fun v => (fun _ _ => some "L") v.1 v.2 :=
  (c9_fallback_order (fun _ _ => some "L") none false "T" "A" (some "T2")
    none).1 (Or.inr rfl)


/-- Exhaustive enumeration of the outcomes of `add_lyrics_to_file`, one
disjunct per return point of the source, with the record the function
produces in each case. -/
theorem job_cases (ovh : String → String → Option String)
    (file : FileModel) (g : Option (String → String → Option String))
    (ug ow : Bool) :
    (file.openOk = false
      ∧ add_lyrics_to_file ovh file g ug ow
        = ⟨false, false, none, none, none, none, none, [], [], false,
            file.tags.getD emptyTags, file.tags⟩)
  ∨ (file.openOk = true ∧ (!ow && hasUSLT (file.tags.getD emptyTags)) = true
      ∧ add_lyrics_to_file ovh file g ug ow
        = ⟨false, false, none, none, none, none, none, [], [], false,
            file.tags.getD emptyTags, file.tags⟩)
  ∨ (file.openOk = true ∧ (!ow && hasUSLT (file.tags.getD emptyTags)) = false
      ∧ firstFieldText [(file.tags.getD emptyTags).tit2,
          (file.tags.getD emptyTags).talb] = .error ()
      ∧ add_lyrics_to_file ovh file g ug ow
        = ⟨true, false, none, none, none, none, none, [], [], false,
            file.tags.getD emptyTags, file.tags⟩)
  ∨ (∃ title, file.openOk = true ∧ (!ow && hasUSLT (file.tags.getD emptyTags)) = false
      ∧ firstFieldText [(file.tags.getD emptyTags).tit2,
          (file.tags.getD emptyTags).talb] = .ok title
      ∧ firstFieldText [(file.tags.getD emptyTags).tpe1,
          (file.tags.getD emptyTags).tpe2] = .error ()
      ∧ add_lyrics_to_file ovh file g ug ow
        = ⟨true, false, title, none, none, none, none, [], [], false,
            file.tags.getD emptyTags, file.tags⟩)
  ∨ (∃ title artist, file.openOk = true
      ∧ (!ow && hasUSLT (file.tags.getD emptyTags)) = false
      ∧ firstFieldText [(file.tags.getD emptyTags).tit2,
          (file.tags.getD emptyTags).talb] = .ok title
      ∧ firstFieldText [(file.tags.getD emptyTags).tpe1,
          (file.tags.getD emptyTags).tpe2] = .ok artist
      ∧ (!truthyS title || !truthyS artist) = true
      ∧ add_lyrics_to_file ovh file g ug ow
        = ⟨false, false, title, artist, none, none, none, [], [], false,
            file.tags.getD emptyTags, file.tags⟩)
  ∨ (∃ title artist, file.openOk = true
      ∧ (!ow && hasUSLT (file.tags.getD emptyTags)) = false
      ∧ firstFieldText [(file.tags.getD emptyTags).tit2,
          (file.tags.getD emptyTags).talb] = .ok title
      ∧ firstFieldText [(file.tags.getD emptyTags).tpe1,
          (file.tags.getD emptyTags).tpe2] = .ok artist
      ∧ (!truthyS title || !truthyS artist) = false
      ∧ altFieldText (file.tags.getD emptyTags).talb = .error ()
      ∧ add_lyrics_to_file ovh file g ug ow
        = ⟨true, false, title, artist, none, none, none, [], [], false,
            file.tags.getD emptyTags, file.tags⟩)
  ∨ (∃ title artist alt_title, file.openOk = true
      ∧ (!ow && hasUSLT (file.tags.getD emptyTags)) = false
      ∧ firstFieldText [(file.tags.getD emptyTags).tit2,
          (file.tags.getD emptyTags).talb] = .ok title
      ∧ firstFieldText [(file.tags.getD emptyTags).tpe1,
          (file.tags.getD emptyTags).tpe2] = .ok artist
      ∧ (!truthyS title || !truthyS artist) = false
      ∧ altFieldText (file.tags.getD emptyTags).talb = .ok alt_title
      ∧ altFieldText (file.tags.getD emptyTags).tpe2 = .error ()
      ∧ add_lyrics_to_file ovh file g ug ow
        = ⟨true, false, title, artist, none, none, none, [], [], false,
            file.tags.getD emptyTags, file.tags⟩)
  ∨ (∃ title artist alt_title alt_artist, file.openOk = true
      ∧ (!ow && hasUSLT (file.tags.getD emptyTags)) = false
      ∧ firstFieldText [(file.tags.getD emptyTags).tit2,
          (file.tags.getD emptyTags).talb] = .ok title
      ∧ firstFieldText [(file.tags.getD emptyTags).tpe1,
          (file.tags.getD emptyTags).tpe2] = .ok artist
      ∧ (!truthyS title || !truthyS artist) = false
      ∧ altFieldText (file.tags.getD emptyTags).talb = .ok alt_title
      ∧ altFieldText (file.tags.getD emptyTags).tpe2 = .ok alt_artist
      ∧ truthyS (get_raw_lyrics ovh (title.getD "") (artist.getD "") g ug
            alt_title alt_artist).raw = false
      ∧ add_lyrics_to_file ovh file g ug ow
        = ⟨false, false, title, artist,
            (get_raw_lyrics ovh (title.getD "") (artist.getD "") g ug
              alt_title alt_artist).raw,
            (get_raw_lyrics ovh (title.getD "") (artist.getD "") g ug
              alt_title alt_artist).source,
            none,
            (get_raw_lyrics ovh (title.getD "") (artist.getD "") g ug
              alt_title alt_artist).gq,
            (get_raw_lyrics ovh (title.getD "") (artist.getD "") g ug
              alt_title alt_artist).oq,
            false, file.tags.getD emptyTags, file.tags⟩)
  ∨ (∃ title artist alt_title alt_artist, file.openOk = true
      ∧ (!ow && hasUSLT (file.tags.getD emptyTags)) = false
      ∧ firstFieldText [(file.tags.getD emptyTags).tit2,
          (file.tags.getD emptyTags).talb] = .ok title
      ∧ firstFieldText [(file.tags.getD emptyTags).tpe1,
          (file.tags.getD emptyTags).tpe2] = .ok artist
      ∧ (!truthyS title || !truthyS artist) = false
      ∧ altFieldText (file.tags.getD emptyTags).talb = .ok alt_title
      ∧ altFieldText (file.tags.getD emptyTags).tpe2 = .ok alt_artist
      ∧ truthyS (get_raw_lyrics ovh (title.getD "") (artist.getD "") g ug
            alt_title alt_artist).raw = true
      ∧ clean_lyrics ((get_raw_lyrics ovh (title.getD "") (artist.getD "") g ug
            alt_title alt_artist).raw.getD "") = ""
      ∧ add_lyrics_to_file ovh file g ug ow
        = ⟨false, false, title, artist,
            (get_raw_lyrics ovh (title.getD "") (artist.getD "") g ug
              alt_title alt_artist).raw,
            (get_raw_lyrics ovh (title.getD "") (artist.getD "") g ug
              alt_title alt_artist).source,
            some (clean_lyrics ((get_raw_lyrics ovh (title.getD "") (artist.getD "")
              g ug alt_title alt_artist).raw.getD "")),
            (get_raw_lyrics ovh (title.getD "") (artist.getD "") g ug
              alt_title alt_artist).gq,
            (get_raw_lyrics ovh (title.getD "") (artist.getD "") g ug
              alt_title alt_artist).oq,
            false, file.tags.getD emptyTags, file.tags⟩)
  ∨ (∃ title artist alt_title alt_artist, file.openOk = true
      ∧ (!ow && hasUSLT (file.tags.getD emptyTags)) = false
      ∧ firstFieldText [(file.tags.getD emptyTags).tit2,
          (file.tags.getD emptyTags).talb] = .ok title
      ∧ firstFieldText [(file.tags.getD emptyTags).tpe1,
          (file.tags.getD emptyTags).tpe2] = .ok artist
      ∧ (!truthyS title || !truthyS artist) = false
      ∧ altFieldText (file.tags.getD emptyTags).talb = .ok alt_title
      ∧ altFieldText (file.tags.getD emptyTags).tpe2 = .ok alt_artist
      ∧ truthyS (get_raw_lyrics ovh (title.getD "") (artist.getD "") g ug
            alt_title alt_artist).raw = true
      ∧ clean_lyrics ((get_raw_lyrics ovh (title.getD "") (artist.getD "") g ug
            alt_title alt_artist).raw.getD "") ≠ ""
      ∧ add_lyrics_to_file ovh file g ug ow
        = ⟨false, file.saveOk, title, artist,
            (get_raw_lyrics ovh (title.getD "") (artist.getD "") g ug
              alt_title alt_artist).raw,
            (get_raw_lyrics ovh (title.getD "") (artist.getD "") g ug
              alt_title alt_artist).source,
            some (clean_lyrics ((get_raw_lyrics ovh (title.getD "") (artist.getD "")
              g ug alt_title alt_artist).raw.getD "")),
            (get_raw_lyrics ovh (title.getD "") (artist.getD "") g ug
              alt_title alt_artist).gq,
            (get_raw_lyrics ovh (title.getD "") (artist.getD "") g ug
              alt_title alt_artist).oq,
            true,
            addUSLT (file.tags.getD emptyTags)
              ⟨"eng", "", clean_lyrics ((get_raw_lyrics ovh (title.getD "")
                (artist.getD "") g ug alt_title alt_artist).raw.getD "")⟩,
            if file.saveOk then
              some (addUSLT (file.tags.getD emptyTags)
                ⟨"eng", "", clean_lyrics ((get_raw_lyrics ovh (title.getD "")
                  (artist.getD "") g ug alt_title alt_artist).raw.getD "")⟩)
            else file.tags⟩) := by
  by_cases ho : file.openOk = true
  case neg =>
    have ho' : file.openOk = false := by revert ho; cases file.openOk <;> simp
    exact Or.inl ⟨ho', by simp [add_lyrics_to_file, ho']⟩
  by_cases hsk : (!ow && hasUSLT (file.tags.getD emptyTags)) = true
  case pos =>
    exact Or.inr (Or.inl ⟨ho, hsk, by simp [add_lyrics_to_file, ho, hsk]⟩)
  have hsk' : (!ow && hasUSLT (file.tags.getD emptyTags)) = false := by
    revert hsk; cases (!ow && hasUSLT (file.tags.getD emptyTags)) <;> simp
  cases ht : firstFieldText [(file.tags.getD emptyTags).tit2,
      (file.tags.getD emptyTags).talb] with
  | error e =>
    cases e
    exact Or.inr (Or.inr (Or.inl ⟨ho, hsk', rfl,
      by simp [add_lyrics_to_file, ho, hsk', ht]⟩))
  | ok title =>
  cases ha : firstFieldText [(file.tags.getD emptyTags).tpe1,
      (file.tags.getD emptyTags).tpe2] with
  | error e =>
    cases e
    exact Or.inr (Or.inr (Or.inr (Or.inl ⟨title, ho, hsk', rfl, rfl,
      by simp [add_lyrics_to_file, ho, hsk', ht, ha]⟩)))
  | ok artist =>
  by_cases hm : (!truthyS title || !truthyS artist) = true
  case pos =>
    exact Or.inr (Or.inr (Or.inr (Or.inr (Or.inl ⟨title, artist, ho, hsk', rfl, rfl,
      hm, by simp [add_lyrics_to_file, ho, hsk', ht, ha, hm]⟩))))
  have hm' : (!truthyS title || !truthyS artist) = false := by
    revert hm; cases (!truthyS title || !truthyS artist) <;> simp
  cases hb : altFieldText (file.tags.getD emptyTags).talb with
  | error e =>
    cases e
    exact Or.inr (Or.inr (Or.inr (Or.inr (Or.inr (Or.inl ⟨title, artist, ho, hsk',
      rfl, rfl, hm', rfl, by simp [add_lyrics_to_file, ho, hsk', ht, ha, hm', hb]⟩)))))
  | ok alt_title =>
  cases hc : altFieldText (file.tags.getD emptyTags).tpe2 with
  | error e =>
    cases e
    exact Or.inr (Or.inr (Or.inr (Or.inr (Or.inr (Or.inr (Or.inl ⟨title, artist,
      alt_title, ho, hsk', rfl, rfl, hm', rfl, rfl,
      by simp [add_lyrics_to_file, ho, hsk', ht, ha, hm', hb, hc]⟩))))))
  | ok alt_artist =>
  by_cases hr : truthyS (get_raw_lyrics ovh (title.getD "") (artist.getD "") g ug
      alt_title alt_artist).raw = true
  case neg =>
    have hr' : truthyS (get_raw_lyrics ovh (title.getD "") (artist.getD "") g ug
        alt_title alt_artist).raw = false := by
      revert hr
      cases truthyS (get_raw_lyrics ovh (title.getD "") (artist.getD "") g ug
        alt_title alt_artist).raw <;> simp
    exact Or.inr (Or.inr (Or.inr (Or.inr (Or.inr (Or.inr (Or.inr (Or.inl ⟨title,
      artist, alt_title, alt_artist, ho, hsk', rfl, rfl, hm', rfl, rfl, hr',
      by simp [add_lyrics_to_file, ho, hsk', ht, ha, hm', hb, hc, hr']⟩)))))))
  by_cases hcl : clean_lyrics ((get_raw_lyrics ovh (title.getD "") (artist.getD "")
      g ug alt_title alt_artist).raw.getD "") = ""
  case pos =>
    exact Or.inr (Or.inr (Or.inr (Or.inr (Or.inr (Or.inr (Or.inr (Or.inr (Or.inl
      ⟨title, artist, alt_title, alt_artist, ho, hsk', rfl, rfl, hm', rfl, rfl, hr, hcl,
      by simp [add_lyrics_to_file, ho, hsk', ht, ha, hm', hb, hc, hr, hcl]⟩))))))))
  exact Or.inr (Or.inr (Or.inr (Or.inr (Or.inr (Or.inr (Or.inr (Or.inr (Or.inr
    ⟨title, artist, alt_title, alt_artist, ho, hsk', rfl, rfl, hm', rfl, rfl, hr, hcl,
    by simp [add_lyrics_to_file, ho, hsk', ht, ha, hm', hb, hc, hr, hcl]⟩))))))))


/-- A false skip condition means overwrite was requested or no USLT frame is
present. -/
theorem skip_cond_elim (ow h : Bool) (hsk : (!ow && h) = false) :
    ow = true ∨ h = false := by
  cases ow
  · right; simpa using hsk
  · left; rfl

/-- Claim C1: a save is attempted only when the file lacked a USLT frame or
overwrite was requested, and only with a truthy raw result whose cleaned
form is non-empty; whenever no save is attempted the on-disk container is
unchanged. -/
theorem c1_write_guard (ovh : String → String → Option String)
    (file : FileModel) (g : Option (String → String → Option String))
    (ug overwrite : Bool) :
    ((add_lyrics_to_file ovh file g ug overwrite).saveAttempted = true →
        (overwrite = true ∨ hasUSLT (file.tags.getD emptyTags) = false)
      ∧ truthyS (add_lyrics_to_file ovh file g ug overwrite).raw = true
      ∧ ∃ c, (add_lyrics_to_file ovh file g ug overwrite).cleaned = some c ∧ c ≠ "")
  ∧ ((add_lyrics_to_file ovh file g ug overwrite).saveAttempted = false →
      (add_lyrics_to_file ovh file g ug overwrite).disk = file.tags) := by
  rcases job_cases ovh file g ug overwrite with
      ⟨ho, hR⟩ | ⟨ho, hsk, hR⟩ | ⟨ho, hsk, ht, hR⟩ | ⟨t, ho, hsk, ht, ha, hR⟩ |
      ⟨t, a, ho, hsk, ht, ha, hm, hR⟩ | ⟨t, a, ho, hsk, ht, ha, hm, hb, hR⟩ |
      ⟨t, a, b, ho, hsk, ht, ha, hm, hb, hc, hR⟩ |
      ⟨t, a, b, c, ho, hsk, ht, ha, hm, hb, hc, hr, hR⟩ |
      ⟨t, a, b, c, ho, hsk, ht, ha, hm, hb, hc, hr, hcl, hR⟩ |
      ⟨t, a, b, c, ho, hsk, ht, ha, hm, hb, hc, hr, hcl, hR⟩
  · rw [hR]; simp
  · rw [hR]; simp
  · rw [hR]; simp
  · rw [hR]; simp
  · rw [hR]; simp
  · rw [hR]; simp
  · rw [hR]; simp
  · rw [hR]; simp
  · rw [hR]; simp
  · rw [hR]
    exact ⟨fun _ => ⟨skip_cond_elim overwrite _ hsk, hr, _, rfl, hcl⟩, by simp⟩

/-- Witness for C1: a concrete successful run. -/
theorem c1_write_guard_witness :
    (false = true
        ∨ hasUSLT (((some ⟨some ⟨["T"]⟩, none, some ⟨["A"]⟩, none, [], []⟩ :
            Option ID3Tags)).getD emptyTags) = false)
  ∧ truthyS (add_lyrics_to_file (fun _ _ => some "Hello")
      ⟨true, some ⟨some ⟨["T"]⟩, none, some ⟨["A"]⟩, none, [], []⟩, true⟩
      none false false).raw = true
  ∧ ∃ c, (add_lyrics_to_file (fun _ _ => some "Hello")
      ⟨true, some ⟨some ⟨["T"]⟩, none, some ⟨["A"]⟩, none, [], []⟩, true⟩
      none false false).cleaned = some c ∧ c ≠ "" :=
  (c1_write_guard (fun _ _ => some "Hello")
    ⟨true, some ⟨some ⟨["T"]⟩, none, some ⟨["A"]⟩, none, [], []⟩, true⟩
    none false false).1 (by decide)

/-- Claim C5: a file whose container already holds any USLT frame is skipped
when overwrite is false: no provider query, no save, container unchanged in
memory and on disk, and the job reports False without an exception. -/
theorem c5_already_tagged_skip (ovh : String → String → Option String)
    (file : FileModel) (g : Option (String → String → Option String))
    (ug : Bool) (h : hasUSLT (file.tags.getD emptyTags) = true) :
    (add_lyrics_to_file ovh file g ug false).gq = []
  ∧ (add_lyrics_to_file ovh file g ug false).oq = []
  ∧ (add_lyrics_to_file ovh file g ug false).saveAttempted = false
  ∧ (add_lyrics_to_file ovh file g ug false).disk = file.tags
  ∧ (add_lyrics_to_file ovh file g ug false).memTags = file.tags.getD emptyTags
  ∧ (add_lyrics_to_file ovh file g ug false).ret = false
  ∧ (add_lyrics_to_file ovh file g ug false).exn = false := by
  rcases job_cases ovh file g ug false with
      ⟨ho, hR⟩ | ⟨ho, hsk, hR⟩ | ⟨ho, hsk, ht, hR⟩ | ⟨t, ho, hsk, ht, ha, hR⟩ |
      ⟨t, a, ho, hsk, ht, ha, hm, hR⟩ | ⟨t, a, ho, hsk, ht, ha, hm, hb, hR⟩ |
      ⟨t, a, b, ho, hsk, ht, ha, hm, hb, hc, hR⟩ |
      ⟨t, a, b, c, ho, hsk, ht, ha, hm, hb, hc, hr, hR⟩ |
      ⟨t, a, b, c, ho, hsk, ht, ha, hm, hb, hc, hr, hcl, hR⟩ |
      ⟨t, a, b, c, ho, hsk, ht, ha, hm, hb, hc, hr, hcl, hR⟩
  · rw [hR]; simp
  · rw [hR]; simp
  all_goals simp [h] at hsk

/-- Witness for C5 at a concrete already-tagged file. -/
theorem c5_already_tagged_skip_witness :
    (add_lyrics_to_file (fun _ _ => some "L")
      ⟨true, some ⟨none, none, none, none, [⟨"fra", "x", "old"⟩], []⟩, true⟩
      none false false).gq = []
  ∧ (add_lyrics_to_file (fun _ _ => some "L")
      ⟨true, some ⟨none, none, none, none, [⟨"fra", "x", "old"⟩], []⟩, true⟩
      none false false).oq = []
  ∧ (add_lyrics_to_file (fun _ _ => some "L")
      ⟨true, some ⟨none, none, none, none, [⟨"fra", "x", "old"⟩], []⟩, true⟩
      none false false).saveAttempted = false
  ∧ (add_lyrics_to_file (fun _ _ => some "L")
      ⟨true, some ⟨none, none, none, none, [⟨"fra", "x", "old"⟩], []⟩, true⟩
      none false false).disk
      = some ⟨none, none, none, none, [⟨"fra", "x", "old"⟩], []⟩
  ∧ (add_lyrics_to_file (fun _ _ => some "L")
      ⟨true, some ⟨none, none, none, none, [⟨"fra", "x", "old"⟩], []⟩, true⟩
      none false false).memTags = (some ⟨none, none, none, none,
        [⟨"fra", "x", "old"⟩], []⟩ : Option ID3Tags).getD emptyTags
  ∧ (add_lyrics_to_file (fun _ _ => some "L")
      ⟨true, some ⟨none, none, none, none, [⟨"fra", "x", "old"⟩], []⟩, true⟩
      none false false).ret = false
  ∧ (add_lyrics_to_file (fun _ _ => some "L")
      ⟨true, some ⟨none, none, none, none, [⟨"fra", "x", "old"⟩], []⟩, true⟩
      none false false).exn = false :=
  c5_already_tagged_skip (fun _ _ => some "L")
    ⟨true, some ⟨none, none, none, none, [⟨"fra", "x", "old"⟩], []⟩, true⟩
    none false (by decide)

/-- Claim C10: the job returns True exactly when a truthy raw result cleaned
to non-empty text, a save was attempted, and the save succeeded; everything
else, including the already-tagged skip, returns False. -/
theorem c10_ret_characterization (ovh : String → String → Option String)
    (file : FileModel) (g : Option (String → String → Option String))
    (ug ow : Bool) :
    ((add_lyrics_to_file ovh file g ug ow).ret = true ↔
        truthyS (add_lyrics_to_file ovh file g ug ow).raw = true
      ∧ (∃ c, (add_lyrics_to_file ovh file g ug ow).cleaned = some c ∧ c ≠ "")
      ∧ (add_lyrics_to_file ovh file g ug ow).saveAttempted = true
      ∧ file.saveOk = true)
  ∧ (ow = false → hasUSLT (file.tags.getD emptyTags) = true →
      (add_lyrics_to_file ovh file g ug ow).ret = false) := by
  rcases job_cases ovh file g ug ow with
      ⟨ho, hR⟩ | ⟨ho, hsk, hR⟩ | ⟨ho, hsk, ht, hR⟩ | ⟨t, ho, hsk, ht, ha, hR⟩ |
      ⟨t, a, ho, hsk, ht, ha, hm, hR⟩ | ⟨t, a, ho, hsk, ht, ha, hm, hb, hR⟩ |
      ⟨t, a, b, ho, hsk, ht, ha, hm, hb, hc, hR⟩ |
      ⟨t, a, b, c, ho, hsk, ht, ha, hm, hb, hc, hr, hR⟩ |
      ⟨t, a, b, c, ho, hsk, ht, ha, hm, hb, hc, hr, hcl, hR⟩ |
      ⟨t, a, b, c, ho, hsk, ht, ha, hm, hb, hc, hr, hcl, hR⟩
  · rw [hR]; simp
  · rw [hR]; simp
  · rw [hR]; simp
  · rw [hR]; simp
  · rw [hR]; simp
  · rw [hR]; simp
  · rw [hR]; simp
  · rw [hR]; simp
  · rw [hR]; simp
  · rw [hR]
    constructor
    · simp [hr, hcl]
    · intro h1 h2
      rw [h1, h2] at hsk
      simp at hsk

/-- Witness for C10: the skip case of a concrete already-tagged file
returns False. -/
theorem c10_ret_characterization_witness :
    (add_lyrics_to_file (fun _ _ => some "L")
      ⟨true, some ⟨none, none, none, none, [⟨"eng", "", "old"⟩], []⟩, true⟩
      none false false).ret = false :=
  (c10_ret_characterization (fun _ _ => some "L")
    ⟨true, some ⟨none, none, none, none, [⟨"eng", "", "old"⟩], []⟩, true⟩
    none false false).2 (by decide) (by decide)

/-- Reading two well-formed frames with the `next(...)` pattern never raises
and produces the first present frame's first text entry. -/
theorem firstFieldText_wf (f1 f2 : Option TextFrameM)
    (h1 : frameOk f1 = true) (h2 : frameOk f2 = true) :
    firstFieldText [f1, f2] = .ok (specFirstFieldHead [f1, f2]) := by
  cases f1 with
  | none =>
    cases f2 with
    | none => rfl
    | some fr =>
      cases hft : fr.text with
      | nil => simp [frameOk, hft] at h2
      | cons t rest => simp [firstFieldText, specFirstFieldHead, hft]
  | some fr =>
    cases hft : fr.text with
    | nil => simp [frameOk, hft] at h1
    | cons t rest => simp [firstFieldText, specFirstFieldHead, hft]

/-- Reading one well-formed optional frame never raises. -/
theorem altFieldText_wf (f : Option TextFrameM) (h : frameOk f = true) :
    altFieldText f = .ok (specFirstFieldHead [f]) := by
  cases f with
  | none => rfl
  | some fr =>
    cases hft : fr.text with
    | nil => simp [frameOk, hft] at h
    | cons t rest => simp [altFieldText, specFirstFieldHead, hft]

/-- Claim C8 fails on the code: on an opened file whose TIT2 frame is
present with an empty text list while TALB is populated, the reader never
takes the title from the populated field — `tags.get("TIT2")` is truthy, so
`text[0]` raises IndexError and the exception escapes the job instead of a
MissingMetadata skip. -/
theorem c8_counterexample :
    (add_lyrics_to_file (fun _ _ => some "L")
        ⟨true, some ⟨some ⟨[]⟩, some ⟨["Album"]⟩, some ⟨["A"]⟩, none, [], []⟩,
          true⟩ none false false).exn = true
  ∧ specFirstFieldHead [some ⟨[]⟩, some ⟨["Album"]⟩] = none
  ∧ specFirstFieldHead [(⟨some ⟨[]⟩, some ⟨["Album"]⟩, some ⟨["A"]⟩, none, [],
        []⟩ : ID3Tags).talb] = some "Album"
  ∧ (add_lyrics_to_file (fun _ _ => some "L")
        ⟨true, some ⟨some ⟨[]⟩, some ⟨["Album"]⟩, some ⟨["A"]⟩, none, [], []⟩,
          true⟩ none false false).titleV = none
  ∧ (add_lyrics_to_file (fun _ _ => some "L")
        ⟨true, some ⟨some ⟨[]⟩, some ⟨["Album"]⟩, some ⟨["A"]⟩, none, [], []⟩,
          true⟩ none false false).ret = false := by
  decide

/-- Amended C8: on an opened, non-skipped file whose present text frames
have non-empty text lists, the metadata reader takes the title from the
first present frame among (TIT2, TALB) and the artist from the first
present frame among (TPE1, TPE2), without raising; and when neither
resolves to a truthy value the job fails, skips the file, makes no provider
query and attempts no write.  An opened file with a present frame whose
text list is empty instead raises IndexError out of the job (the subject of
C6). -/
theorem c8_metadata_reader (ovh : String → String → Option String)
    (file : FileModel) (g : Option (String → String → Option String))
    (ug ow : Bool)
    (hwf : wellFormedTags (file.tags.getD emptyTags) = true)
    (hopen : file.openOk = true)
    (hnoskip : ow = true ∨ hasUSLT (file.tags.getD emptyTags) = false) :
    (add_lyrics_to_file ovh file g ug ow).exn = false
  ∧ (add_lyrics_to_file ovh file g ug ow).titleV
      = specFirstFieldHead [(file.tags.getD emptyTags).tit2,
          (file.tags.getD emptyTags).talb]
  ∧ (add_lyrics_to_file ovh file g ug ow).artistV
      = specFirstFieldHead [(file.tags.getD emptyTags).tpe1,
          (file.tags.getD emptyTags).tpe2]
  ∧ (truthyS (add_lyrics_to_file ovh file g ug ow).titleV = false
      ∧ truthyS (add_lyrics_to_file ovh file g ug ow).artistV = false →
        (add_lyrics_to_file ovh file g ug ow).ret = false
      ∧ (add_lyrics_to_file ovh file g ug ow).saveAttempted = false
      ∧ (add_lyrics_to_file ovh file g ug ow).disk = file.tags
      ∧ (add_lyrics_to_file ovh file g ug ow).gq = []
      ∧ (add_lyrics_to_file ovh file g ug ow).oq = []) := by
  simp only [wellFormedTags, Bool.and_eq_true] at hwf
  obtain ⟨⟨⟨hwf1, hwf2⟩, hwf3⟩, hwf4⟩ := hwf
  have hsk0 : (!ow && hasUSLT (file.tags.getD emptyTags)) = false := by
    rcases hnoskip with h | h <;> simp [h]
  rcases job_cases ovh file g ug ow with
      ⟨ho, hR⟩ | ⟨ho, hsk, hR⟩ | ⟨ho, hsk, ht, hR⟩ | ⟨t, ho, hsk, ht, ha, hR⟩ |
      ⟨t, a, ho, hsk, ht, ha, hm, hR⟩ | ⟨t, a, ho, hsk, ht, ha, hm, hb, hR⟩ |
      ⟨t, a, b, ho, hsk, ht, ha, hm, hb, hc, hR⟩ |
      ⟨t, a, b, c, ho, hsk, ht, ha, hm, hb, hc, hr, hR⟩ |
      ⟨t, a, b, c, ho, hsk, ht, ha, hm, hb, hc, hr, hcl, hR⟩ |
      ⟨t, a, b, c, ho, hsk, ht, ha, hm, hb, hc, hr, hcl, hR⟩
  · rw [ho] at hopen; exact absurd hopen (by simp)
  · rw [hsk0] at hsk; exact absurd hsk (by simp)
  · rw [firstFieldText_wf _ _ hwf1 hwf2] at ht; exact absurd ht (by simp)
  · rw [firstFieldText_wf _ _ hwf3 hwf4] at ha; exact absurd ha (by simp)
  · rw [firstFieldText_wf _ _ hwf1 hwf2] at ht
    rw [firstFieldText_wf _ _ hwf3 hwf4] at ha
    rw [hR]
    refine ⟨rfl, by simpa using ht.symm, by simpa using ha.symm, ?_⟩
    intro _
    exact ⟨rfl, rfl, rfl, rfl, rfl⟩
  · rw [altFieldText_wf _ hwf2] at hb; exact absurd hb (by simp)
  · rw [altFieldText_wf _ hwf4] at hc; exact absurd hc (by simp)
  all_goals
    rw [firstFieldText_wf _ _ hwf1 hwf2] at ht
    rw [firstFieldText_wf _ _ hwf3 hwf4] at ha
    rw [hR]
    refine ⟨rfl, by simpa using ht.symm, by simpa using ha.symm, ?_⟩
    intro hfalsy
    exfalso
    have hft : truthyS t = false ∧ truthyS a = false := by
      simpa using hfalsy
    rw [hft.1, hft.2] at hm
    simp at hm

/-- Witness for C8: a well-formed file missing all four metadata frames is
skipped with no query and no write. -/
theorem c8_metadata_reader_witness :
    (add_lyrics_to_file (fun _ _ => some "L")
        ⟨true, some ⟨none, none, none, none, [], ["APIC"]⟩, true⟩
        none false false).ret = false
  ∧ (add_lyrics_to_file (fun _ _ => some "L")
        ⟨true, some ⟨none, none, none, none, [], ["APIC"]⟩, true⟩
        none false false).saveAttempted = false
  ∧ (add_lyrics_to_file (fun _ _ => some "L")
        ⟨true, some ⟨none, none, none, none, [], ["APIC"]⟩, true⟩
        none false false).disk = some ⟨none, none, none, none, [], ["APIC"]⟩
  ∧ (add_lyrics_to_file (fun _ _ => some "L")
        ⟨true, some ⟨none, none, none, none, [], ["APIC"]⟩, true⟩
        none false false).gq = []
  ∧ (add_lyrics_to_file (fun _ _ => some "L")
        ⟨true, some ⟨none, none, none, none, [], ["APIC"]⟩, true⟩
        none false false).oq = [] :=
  (c8_metadata_reader (fun _ _ => some "L")
      ⟨true, some ⟨none, none, none, none, [], ["APIC"]⟩, true⟩
      none false false (by decide) (by decide) (Or.inr (by decide))).2.2.2
    ⟨by decide, by decide⟩

/-- Claim C6 fails on the code: a file whose TIT2 frame has an empty text
list makes `tags.get("TIT2").text[0]` raise IndexError, which the job does
not catch, so the exception escapes `add_lyrics_to_file`. -/
theorem c6_counterexample :
    (add_lyrics_to_file (fun _ _ => none)
      ⟨true, some ⟨some ⟨[]⟩, none, none, none, [], []⟩, true⟩
      none false false).exn = true := by decide

/-- Amended C6: the job converts every open and save error to a boolean and
raises no exception on any file whose present text frames all have
non-empty text lists; only a present frame with an empty text list makes an
IndexError escape to the dispatcher (whose bare except then logs it). -/
theorem c6_amended_no_exn (ovh : String → String → Option String)
    (file : FileModel) (g : Option (String → String → Option String))
    (ug ow : Bool)
    (hwf : wellFormedTags (file.tags.getD emptyTags) = true) :
    (add_lyrics_to_file ovh file g ug ow).exn = false := by
  simp only [wellFormedTags, Bool.and_eq_true] at hwf
  obtain ⟨⟨⟨hwf1, hwf2⟩, hwf3⟩, hwf4⟩ := hwf
  rcases job_cases ovh file g ug ow with
      ⟨ho, hR⟩ | ⟨ho, hsk, hR⟩ | ⟨ho, hsk, ht, hR⟩ | ⟨t, ho, hsk, ht, ha, hR⟩ |
      ⟨t, a, ho, hsk, ht, ha, hm, hR⟩ | ⟨t, a, ho, hsk, ht, ha, hm, hb, hR⟩ |
      ⟨t, a, b, ho, hsk, ht, ha, hm, hb, hc, hR⟩ |
      ⟨t, a, b, c, ho, hsk, ht, ha, hm, hb, hc, hr, hR⟩ |
      ⟨t, a, b, c, ho, hsk, ht, ha, hm, hb, hc, hr, hcl, hR⟩ |
      ⟨t, a, b, c, ho, hsk, ht, ha, hm, hb, hc, hr, hcl, hR⟩
  · rw [hR]
  · rw [hR]
  · rw [firstFieldText_wf _ _ hwf1 hwf2] at ht; exact absurd ht (by simp)
  · rw [firstFieldText_wf _ _ hwf3 hwf4] at ha; exact absurd ha (by simp)
  · rw [hR]
  · rw [altFieldText_wf _ hwf2] at hb; exact absurd hb (by simp)
  · rw [altFieldText_wf _ hwf4] at hc; exact absurd hc (by simp)
  · rw [hR]
  · rw [hR]
  · rw [hR]

/-- Witness for the amended C6 at a concrete well-formed file. -/
theorem c6_amended_no_exn_witness :
    (add_lyrics_to_file (fun _ _ => none)
      ⟨true, some ⟨some ⟨["T"]⟩, none, some ⟨["A"]⟩, none, [], []⟩, true⟩
      none false false).exn = false :=
  c6_amended_no_exn (fun _ _ => none)
    ⟨true, some ⟨some ⟨["T"]⟩, none, some ⟨["A"]⟩, none, [], []⟩, true⟩
    none false false (by decide)

/-- The frame just added by `tags.add` is in the container. -/
theorem addUSLT_mem_new (tags : ID3Tags) (fr : USLTFrameM) :
    fr ∈ (addUSLT tags fr).uslt := by
  simp only [addUSLT]
  by_cases h : tags.uslt.any (fun g => g.lang = fr.lang && g.desc = fr.desc) = true
  · rw [if_pos h]
    obtain ⟨g, hg, hkey⟩ := List.any_eq_true.mp h
    exact List.mem_map.mpr ⟨g, hg, by simp [hkey]⟩
  · rw [if_neg h]
    exact List.mem_append_right _ (List.mem_singleton.mpr rfl)

/-- After `tags.add fr`, every frame with the same language and description
key equals the added frame. -/
theorem addUSLT_key_eq (tags : ID3Tags) (fr g : USLTFrameM)
    (hg : g ∈ (addUSLT tags fr).uslt)
    (hl : g.lang = fr.lang) (hd : g.desc = fr.desc) : g = fr := by
  simp only [addUSLT] at hg
  by_cases h : tags.uslt.any (fun x => x.lang = fr.lang && x.desc = fr.desc) = true
  · rw [if_pos h] at hg
    obtain ⟨x, hx, hxg⟩ := List.mem_map.mp hg
    by_cases hk : (x.lang = fr.lang ∧ x.desc = fr.desc)
    · rw [if_pos (by simp [hk.1, hk.2])] at hxg
      exact hxg.symm
    · rw [if_neg (by simpa using hk)] at hxg
      exact absurd ⟨hxg ▸ hl, hxg ▸ hd⟩ hk
  · rw [if_neg h] at hg
    rcases List.mem_append.mp hg with hmem | hmem
    · exfalso
      exact h (List.any_eq_true.mpr ⟨g, hmem, by simp [hl, hd]⟩)
    · exact List.mem_singleton.mp hmem

/-- After `tags.add fr`, a pre-existing frame with a different key is kept
unchanged. -/
theorem addUSLT_mem_old (tags : ID3Tags) (fr g : USLTFrameM)
    (hg : g ∈ tags.uslt) (hne : ¬(g.lang = fr.lang ∧ g.desc = fr.desc)) :
    g ∈ (addUSLT tags fr).uslt := by
  simp only [addUSLT]
  by_cases h : tags.uslt.any (fun x => x.lang = fr.lang && x.desc = fr.desc) = true
  · rw [if_pos h]
    exact List.mem_map.mpr ⟨g, hg, by rw [if_neg (by simpa using hne)]⟩
  · rw [if_neg h]
    exact List.mem_append_left _ hg

/-- Every frame of the container after `tags.add fr` is the added frame or a
pre-existing frame. -/
theorem addUSLT_mem_elim (tags : ID3Tags) (fr g : USLTFrameM)
    (hg : g ∈ (addUSLT tags fr).uslt) : g = fr ∨ g ∈ tags.uslt := by
  simp only [addUSLT] at hg
  by_cases h : tags.uslt.any (fun x => x.lang = fr.lang && x.desc = fr.desc) = true
  · rw [if_pos h] at hg
    obtain ⟨x, hx, hxg⟩ := List.mem_map.mp hg
    by_cases hk : (x.lang = fr.lang && x.desc = fr.desc) = true
    · rw [if_pos (by simpa using hk)] at hxg
      exact Or.inl hxg.symm
    · rw [if_neg (by simpa using hk)] at hxg
      exact Or.inr (hxg ▸ hx)
  · rw [if_neg h] at hg
    rcases List.mem_append.mp hg with hmem | hmem
    · exact Or.inr hmem
    · exact Or.inl (List.mem_singleton.mp hmem)

/-- Claim C4 fails on the code: with overwrite and a successful resolution,
a pre-existing USLT frame keyed ("fra", "x") is not replaced — the new
("eng", "") frame is added beside it, so the container ends with two lyrics
frames and the old frame's content intact. -/
theorem c4_counterexample :
    (add_lyrics_to_file (fun _ _ => some "Hello")
        ⟨true, some ⟨some ⟨["T"]⟩, none, some ⟨["A"]⟩, none,
          [⟨"fra", "x", "old"⟩], []⟩, true⟩ none false true).saveAttempted = true
  ∧ (add_lyrics_to_file (fun _ _ => some "Hello")
        ⟨true, some ⟨some ⟨["T"]⟩, none, some ⟨["A"]⟩, none,
          [⟨"fra", "x", "old"⟩], []⟩, true⟩ none false true).cleaned = some "Hello"
  ∧ (add_lyrics_to_file (fun _ _ => some "Hello")
        ⟨true, some ⟨some ⟨["T"]⟩, none, some ⟨["A"]⟩, none,
          [⟨"fra", "x", "old"⟩], []⟩, true⟩ none false true).memTags.uslt
      = [⟨"fra", "x", "old"⟩, ⟨"eng", "", "Hello"⟩]
  ∧ ¬((add_lyrics_to_file (fun _ _ => some "Hello")
        ⟨true, some ⟨some ⟨["T"]⟩, none, some ⟨["A"]⟩, none,
          [⟨"fra", "x", "old"⟩], []⟩, true⟩ none false true).memTags.uslt
      = [⟨"eng", "", "Hello"⟩])
  ∧ (add_lyrics_to_file (fun _ _ => some "Hello")
        ⟨true, some ⟨some ⟨["T"]⟩, none, some ⟨["A"]⟩, none,
          [⟨"fra", "x", "old"⟩], []⟩, true⟩ none false true).disk
      = some ⟨some ⟨["T"]⟩, none, some ⟨["A"]⟩, none,
          [⟨"fra", "x", "old"⟩, ⟨"eng", "", "Hello"⟩], []⟩ := by decide

/-- Amended C4: with overwrite, a successful resolution adds or replaces the
USLT frame keyed (language "eng", empty description) with exactly the
cleaned text; a pre-existing USLT frame with any other key is kept unchanged
beside it, and all non-USLT frames are preserved untouched. -/
theorem c4_overwrite_replaces_eng_frame (ovh : String → String → Option String)
    (file : FileModel) (g : Option (String → String → Option String))
    (ug : Bool)
    (hsave : (add_lyrics_to_file ovh file g ug true).saveAttempted = true) :
    ∃ c, (add_lyrics_to_file ovh file g ug true).cleaned = some c ∧ c ≠ ""
  ∧ (add_lyrics_to_file ovh file g ug true).memTags
      = addUSLT (file.tags.getD emptyTags) ⟨"eng", "", c⟩
  ∧ (add_lyrics_to_file ovh file g ug true).memTags.tit2
      = (file.tags.getD emptyTags).tit2
  ∧ (add_lyrics_to_file ovh file g ug true).memTags.talb
      = (file.tags.getD emptyTags).talb
  ∧ (add_lyrics_to_file ovh file g ug true).memTags.tpe1
      = (file.tags.getD emptyTags).tpe1
  ∧ (add_lyrics_to_file ovh file g ug true).memTags.tpe2
      = (file.tags.getD emptyTags).tpe2
  ∧ (add_lyrics_to_file ovh file g ug true).memTags.others
      = (file.tags.getD emptyTags).others
  ∧ (⟨"eng", "", c⟩ : USLTFrameM) ∈ (add_lyrics_to_file ovh file g ug true).memTags.uslt
  ∧ (∀ fr ∈ (add_lyrics_to_file ovh file g ug true).memTags.uslt,
        fr.lang = "eng" → fr.desc = "" → fr = ⟨"eng", "", c⟩)
  ∧ (∀ fr ∈ (file.tags.getD emptyTags).uslt,
        ¬(fr.lang = "eng" ∧ fr.desc = "") →
          fr ∈ (add_lyrics_to_file ovh file g ug true).memTags.uslt)
  ∧ (∀ fr ∈ (add_lyrics_to_file ovh file g ug true).memTags.uslt,
        fr = ⟨"eng", "", c⟩ ∨ fr ∈ (file.tags.getD emptyTags).uslt)
  ∧ (file.saveOk = true →
      (add_lyrics_to_file ovh file g ug true).disk
        = some (add_lyrics_to_file ovh file g ug true).memTags) := by
  rcases job_cases ovh file g ug true with
      ⟨ho, hR⟩ | ⟨ho, hsk, hR⟩ | ⟨ho, hsk, ht, hR⟩ | ⟨t, ho, hsk, ht, ha, hR⟩ |
      ⟨t, a, ho, hsk, ht, ha, hm, hR⟩ | ⟨t, a, ho, hsk, ht, ha, hm, hb, hR⟩ |
      ⟨t, a, b, ho, hsk, ht, ha, hm, hb, hc, hR⟩ |
      ⟨t, a, b, c, ho, hsk, ht, ha, hm, hb, hc, hr, hR⟩ |
      ⟨t, a, b, c, ho, hsk, ht, ha, hm, hb, hc, hr, hcl, hR⟩ |
      ⟨t, a, b, c, ho, hsk, ht, ha, hm, hb, hc, hr, hcl, hR⟩
  all_goals rw [hR] at hsave ⊢
  all_goals try exact Bool.noConfusion hsave
  refine ⟨clean_lyrics ((get_raw_lyrics ovh (t.getD "") (a.getD "") g ug b c).raw.getD ""),
    rfl, hcl, rfl, rfl, rfl, rfl, rfl, rfl, ?_, ?_, ?_, ?_, ?_⟩
  · exact addUSLT_mem_new _ _
  · intro fr hfr hl hd
    exact addUSLT_key_eq _ _ fr hfr hl hd
  · intro fr hfr hne
    exact addUSLT_mem_old _ _ fr hfr hne
  · intro fr hfr
    exact addUSLT_mem_elim _ _ fr hfr
  · intro hok
    simp [hok]

/-- Witness for the amended C4: the concrete run of the counterexample file
satisfies the amended description. -/
theorem c4_overwrite_replaces_eng_frame_witness :
    ∃ c, (add_lyrics_to_file (fun _ _ => some "Hello")
        ⟨true, some ⟨some ⟨["T"]⟩, none, some ⟨["A"]⟩, none,
          [⟨"fra", "x", "old"⟩], []⟩, true⟩ none false true).cleaned = some c
      ∧ c ≠ ""
  ∧ (add_lyrics_to_file (fun _ _ => some "Hello")
        ⟨true, some ⟨some ⟨["T"]⟩, none, some ⟨["A"]⟩, none,
          [⟨"fra", "x", "old"⟩], []⟩, true⟩ none false true).memTags
      = addUSLT (((some ⟨some ⟨["T"]⟩, none, some ⟨["A"]⟩, none,
          [⟨"fra", "x", "old"⟩], []⟩ : Option ID3Tags)).getD emptyTags)
          ⟨"eng", "", c⟩
  ∧ (add_lyrics_to_file (fun _ _ => some "Hello")
        ⟨true, some ⟨some ⟨["T"]⟩, none, some ⟨["A"]⟩, none,
          [⟨"fra", "x", "old"⟩], []⟩, true⟩ none false true).memTags.tit2
      = (((some ⟨some ⟨["T"]⟩, none, some ⟨["A"]⟩, none,
          [⟨"fra", "x", "old"⟩], []⟩ : Option ID3Tags)).getD emptyTags).tit2
  ∧ (add_lyrics_to_file (fun _ _ => some "Hello")
        ⟨true, some ⟨some ⟨["T"]⟩, none, some ⟨["A"]⟩, none,
          [⟨"fra", "x", "old"⟩], []⟩, true⟩ none false true).memTags.talb
      = (((some ⟨some ⟨["T"]⟩, none, some ⟨["A"]⟩, none,
          [⟨"fra", "x", "old"⟩], []⟩ : Option ID3Tags)).getD emptyTags).talb
  ∧ (add_lyrics_to_file (fun _ _ => some "Hello")
        ⟨true, some ⟨some ⟨["T"]⟩, none, some ⟨["A"]⟩, none,
          [⟨"fra", "x", "old"⟩], []⟩, true⟩ none false true).memTags.tpe1
      = (((some ⟨some ⟨["T"]⟩, none, some ⟨["A"]⟩, none,
          [⟨"fra", "x", "old"⟩], []⟩ : Option ID3Tags)).getD emptyTags).tpe1
  ∧ (add_lyrics_to_file (fun _ _ => some "Hello")
        ⟨true, some ⟨some ⟨["T"]⟩, none, some ⟨["A"]⟩, none,
          [⟨"fra", "x", "old"⟩], []⟩, true⟩ none false true).memTags.tpe2
      = (((some ⟨some ⟨["T"]⟩, none, some ⟨["A"]⟩, none,
          [⟨"fra", "x", "old"⟩], []⟩ : Option ID3Tags)).getD emptyTags).tpe2
  ∧ (add_lyrics_to_file (fun _ _ => some "Hello")
        ⟨true, some ⟨some ⟨["T"]⟩, none, some ⟨["A"]⟩, none,
          [⟨"fra", "x", "old"⟩], []⟩, true⟩ none false true).memTags.others
      = (((some ⟨some ⟨["T"]⟩, none, some ⟨["A"]⟩, none,
          [⟨"fra", "x", "old"⟩], []⟩ : Option ID3Tags)).getD emptyTags).others
  ∧ (⟨"eng", "", c⟩ : USLTFrameM) ∈ (add_lyrics_to_file (fun _ _ => some "Hello")
        ⟨true, some ⟨some ⟨["T"]⟩, none, some ⟨["A"]⟩, none,
          [⟨"fra", "x", "old"⟩], []⟩, true⟩ none false true).memTags.uslt
  ∧ (∀ fr ∈ (add_lyrics_to_file (fun _ _ => some "Hello")
        ⟨true, some ⟨some ⟨["T"]⟩, none, some ⟨["A"]⟩, none,
          [⟨"fra", "x", "old"⟩], []⟩, true⟩ none false true).memTags.uslt,
        fr.lang = "eng" → fr.desc = "" → fr = ⟨"eng", "", c⟩)
  ∧ (∀ fr ∈ (((some ⟨some ⟨["T"]⟩, none, some ⟨["A"]⟩, none,
          [⟨"fra", "x", "old"⟩], []⟩ : Option ID3Tags)).getD emptyTags).uslt,
        ¬(fr.lang = "eng" ∧ fr.desc = "") →
          fr ∈ (add_lyrics_to_file (fun _ _ => some "Hello")
            ⟨true, some ⟨some ⟨["T"]⟩, none, some ⟨["A"]⟩, none,
              [⟨"fra", "x", "old"⟩], []⟩, true⟩ none false true).memTags.uslt)
  ∧ (∀ fr ∈ (add_lyrics_to_file (fun _ _ => some "Hello")
        ⟨true, some ⟨some ⟨["T"]⟩, none, some ⟨["A"]⟩, none,
          [⟨"fra", "x", "old"⟩], []⟩, true⟩ none false true).memTags.uslt,
        fr = ⟨"eng", "", c⟩ ∨ fr ∈ (((some ⟨some ⟨["T"]⟩, none, some ⟨["A"]⟩,
          none, [⟨"fra", "x", "old"⟩], []⟩ : Option ID3Tags)).getD emptyTags).uslt)
  ∧ (true = true →
      (add_lyrics_to_file (fun _ _ => some "Hello")
        ⟨true, some ⟨some ⟨["T"]⟩, none, some ⟨["A"]⟩, none,
          [⟨"fra", "x", "old"⟩], []⟩, true⟩ none false true).disk
        = some (add_lyrics_to_file (fun _ _ => some "Hello")
          ⟨true, some ⟨some ⟨["T"]⟩, none, some ⟨["A"]⟩, none,
            [⟨"fra", "x", "old"⟩], []⟩, true⟩ none false true).memTags) :=
  c4_overwrite_replaces_eng_frame (fun _ _ => some "Hello")
    ⟨true, some ⟨some ⟨["T"]⟩, none, some ⟨["A"]⟩, none,
      [⟨"fra", "x", "old"⟩], []⟩, true⟩ none false (by decide)

/-- Claim C7 fails on the code: for a root that is neither a directory nor an
existing file, the scanner still queues one job whenever the root's name
ends in ".mp3" — the source never checks `os.path.isfile`, so no
configuration error is reported for such a root. -/
theorem c7_counterexample :
    (FileSys.mk (fun _ => false) (fun _ => false) (fun _ => [])).isfile
        "ghost.mp3" = false
  ∧ (FileSys.mk (fun _ => false) (fun _ => false) (fun _ => [])).isdir
        "ghost.mp3" = false
  ∧ process_path (FileSys.mk (fun _ => false) (fun _ => false) (fun _ => []))
        "ghost.mp3" = some ["ghost.mp3"] := by
  refine ⟨rfl, rfl, ?_⟩
  decide

/-- Amended C7: a directory root queues exactly the recursively walked files
whose name ends in ".mp3" case-insensitively; a non-directory root whose
name ends in ".mp3" queues exactly that root, whether or not such a file
exists; and a configuration error with no jobs occurs exactly for a
non-directory root whose name does not end in ".mp3". -/
theorem c7_scanner (fs : FileSys) (root : String) :
    (fs.isdir root = true →
        ∃ jobs, process_path fs root = some jobs
      ∧ ∀ p, p ∈ jobs ↔ ∃ df, df ∈ fs.walk root
          ∧ endsWithS (lowerS df.2) ".mp3" = true ∧ p = joinPath df.1 df.2)
  ∧ (fs.isdir root = false → endsWithS (lowerS root) ".mp3" = true →
        process_path fs root = some [root])
  ∧ (fs.isdir root = false → endsWithS (lowerS root) ".mp3" = false →
        process_path fs root = none) := by
  refine ⟨?_, ?_, ?_⟩
  · intro hdir
    refine ⟨((fs.walk root).filter fun df => endsWithS (lowerS df.2) ".mp3").map
        (fun df => joinPath df.1 df.2), by simp [process_path, hdir], ?_⟩
    intro p
    constructor
    · intro hp
      obtain ⟨df, hdf, hpj⟩ := List.mem_map.mp hp
      obtain ⟨hmem, hext⟩ := List.mem_filter.mp hdf
      exact ⟨df, hmem, hext, hpj.symm⟩
    · rintro ⟨df, hmem, hext, rfl⟩
      exact List.mem_map.mpr ⟨df, List.mem_filter.mpr ⟨hmem, hext⟩, rfl⟩
  · intro hdir hext
    simp [process_path, hdir, hext]
  · intro hdir hext
    simp [process_path, hdir, hext]

/-- Witness for the amended C7: a non-directory ".mp3" root is queued even
though it does not exist. -/
theorem c7_scanner_witness :
    process_path (FileSys.mk (fun _ => false) (fun _ => false) (fun _ => []))
      "ghost.mp3" = some ["ghost.mp3"] :=
  (c7_scanner (FileSys.mk (fun _ => false) (fun _ => false) (fun _ => []))
    "ghost.mp3").2.1 (by decide) (by decide)

/-- Trimming both ends is idempotent. -/
theorem trimEnds_idem (p : α → Bool) (l : List α) :
    trimEnds p (trimEnds p l) = trimEnds p l := by
  unfold trimEnds
  have h1 : List.dropWhile p (List.rdropWhile p (List.dropWhile p l))
      = List.rdropWhile p (List.dropWhile p l) := by
    rw [List.dropWhile_eq_self_iff]
    intro hl
    have hpre := List.rdropWhile_prefix p (List.dropWhile p l)
    have hlen : 0 < (List.dropWhile p l).length :=
      Nat.lt_of_lt_of_le hl hpre.length_le
    have hx := List.dropWhile_get_zero_not p l hlen
    have heq := hpre.getElem (n := 0) hl
    simpa [List.get_eq_getElem, heq] using hx
  rw [h1, List.rdropWhile_idempotent]

/-- The trimmed list is an infix of the original. -/
theorem trimEnds_within (p : α → Bool) (l : List α) :
    trimEnds p l <:+: l := by
  unfold trimEnds
  have hpre := List.rdropWhile_prefix p (List.dropWhile p l)
  have hsuf : List.dropWhile p l <:+ l := List.dropWhile_suffix p
  exact List.IsInfix.trans ( List.IsPrefix.isInfix hpre) ( List.IsSuffix.isInfix hsuf)

/-- The last element of a trimmed nonempty list fails the predicate. -/
theorem trimEnds_last_not (p : α → Bool) (l : List α)
    (h : trimEnds p l ≠ []) : ¬p ((trimEnds p l).getLast h) := by
  unfold trimEnds at h ⊢
  exact List.rdropWhile_last_not p (List.dropWhile p l) h

/-- Stripping is idempotent. -/
theorem pyStrip_idem (l : List Char) : pyStrip (pyStrip l) = pyStrip l :=
  trimEnds_idem pySpace l

/-- The stripped string is an infix of the original. -/
theorem pyStrip_within (l : List Char) : pyStrip l <:+: l :=
  trimEnds_within pySpace l

/-- A double bar survives prepending one element. -/
theorem hasBB_cons (c : Char) (m : List Char) (h : hasBB m = true) :
    hasBB (c :: m) = true := by
  cases m with
  | nil => simp [hasBB] at h
  | cons d rest => simp [hasBB, h]

/-- A double bar in the right part survives appending on the left. -/
theorem hasBB_append_right (x y : List Char) (h : hasBB y = true) :
    hasBB (x ++ y) = true := by
  induction x with
  | nil => simpa using h
  | cons c xs ih => exact hasBB_cons c _ ih

/-- A double bar in the left part survives appending on the right. -/
theorem hasBB_append_left (x y : List Char) (h : hasBB x = true) :
    hasBB (x ++ y) = true := by
  induction x with
  | nil => simp [hasBB] at h
  | cons c xs ih =>
    cases xs with
    | nil => simp [hasBB] at h
    | cons d rest =>
      rw [hasBB] at h
      rcases Bool.or_eq_true_iff.mp h with hcd | hrest
      · simp [hasBB, hcd]
      · exact hasBB_cons c _ (ih hrest)

/-- An explicitly written double bar is found. -/
theorem hasBB_explicit (x y : List Char) :
    hasBB (x ++ '|' :: '|' :: y) = true :=
  hasBB_append_right x _ (by simp [hasBB])

/-- A double bar in an infix is a double bar in the whole string. -/
theorem hasBB_mono (x y : List Char) (hinf : x <:+: y)
    (h : hasBB x = true) : hasBB y = true := by
  obtain ⟨u, v, rfl⟩ := hinf
  simpa [List.append_assoc] using hasBB_append_right u (x ++ v) (hasBB_append_left x v h)

/-- The search for a first double bar succeeds exactly when one occurs. -/
theorem splitBB_isSome_eq_hasBB (l : List Char) :
    (splitBB l).isSome = hasBB l := by
  induction l with
  | nil => rfl
  | cons c rest ih =>
    cases rest with
    | nil => rfl
    | cons d tail =>
      rw [splitBB, hasBB]
      by_cases h : (c = '|' && d = '|') = true
      · simp [h]
      · have h' : (c = '|' && d = '|') = false := by
          revert h; cases (c = '|' && d = '|') <;> simp
        simp only [h', if_false, Bool.false_or]
        rw [← ih]
        cases splitBB (d :: tail) <;> simp

/-- Decomposition at the found first double bar. -/
theorem splitBB_some_eq (l : List Char) (q : List Char × List Char)
    (h : splitBB l = some q) : l = q.1 ++ '|' :: '|' :: q.2 := by
  induction l generalizing q with
  | nil => simp [splitBB] at h
  | cons c rest ih =>
    cases rest with
    | nil => simp [splitBB] at h
    | cons d tail =>
      rw [splitBB] at h
      by_cases hcd : (c = '|' && d = '|') = true
      · rw [if_pos hcd] at h
        obtain ⟨hc, hd⟩ := Bool.and_eq_true_iff.mp hcd
        cases h
        rw [of_decide_eq_true hc, of_decide_eq_true hd]
        rfl
      · have hcd' : (c = '|' && d = '|') = false := by
          revert hcd; cases (c = '|' && d = '|') <;> simp
        rw [hcd', if_neg (by simp)] at h
        cases hin : splitBB (d :: tail) with
        | none => rw [hin] at h; exact Option.noConfusion h
        | some q0 =>
          rw [hin] at h
          have h' : some ((c :: q0.1, q0.2)) = some q := h
          cases h'
          have := ih q0 hin
          simp [this]

/-- If a double bar occurs after the first one, it occurs after whichever
occurrence the search found first. -/
theorem splitBB_tail_hasBB (u : List Char) :
    ∀ (w : List Char) (q : List Char × List Char),
    splitBB (u ++ '|' :: '|' :: w) = some q → hasBB w = true → hasBB q.2 = true := by
  induction u with
  | nil =>
    intro w q h hw
    have h' : some (([] : List Char), w) = some q := by
      rw [← h, List.nil_append, splitBB]; rfl
    cases h'
    exact hw
  | cons c u' ih =>
    intro w q h hw
    cases hu : u' with
    | nil =>
      subst hu
      rw [List.cons_append, List.nil_append, splitBB] at h
      by_cases hc : (c = '|' && ('|' : Char) = '|') = true
      · rw [if_pos hc] at h
        cases h
        exact hasBB_cons _ _ hw
      · have hc' : (c = '|' && ('|' : Char) = '|') = false := by
          revert hc; cases (c = '|' && ('|' : Char) = '|') <;> simp
        rw [hc', if_neg (by simp)] at h
        have hin : splitBB ('|' :: '|' :: w) = some ([], w) := by
          rw [splitBB]; rfl
        rw [hin] at h
        have h' : some ((c :: ([] : List Char), w)) = some q := h
        cases h'
        exact hw
    | cons d u'' =>
      subst hu
      rw [List.cons_append, List.cons_append, splitBB] at h
      by_cases hcd : (c = '|' && d = '|') = true
      · rw [if_pos hcd] at h
        cases h
        exact hasBB_explicit u'' w
      · have hcd' : (c = '|' && d = '|') = false := by
          revert hcd; cases (c = '|' && d = '|') <;> simp
        rw [hcd', if_neg (by simp)] at h
        cases hin : splitBB (d :: (u'' ++ '|' :: '|' :: w)) with
        | none => rw [hin] at h; exact Option.noConfusion h
        | some q0 =>
          rw [hin] at h
          have h' : some ((c :: q0.1, q0.2)) = some q := h
          cases h'
          have := ih w q0 (by rw [List.cons_append]; exact hin) hw
          exact this

/-- A successful regex-head match decomposes the string at a double bar. -/
theorem langBarMatch_some_eq (d tail : List Char)
    (h : langBarMatch d = some tail) : ∃ u, d = u ++ '|' :: '|' :: tail := by
  unfold langBarMatch at h
  split at h
  · split at h
    · cases h
      exact ⟨[_, _], rfl⟩
    · exact Option.noConfusion h
  · split at h
    · cases h
      exact ⟨[_, _, _], rfl⟩
    · exact Option.noConfusion h
  · exact Option.noConfusion h

/-- Without a double bar the regex head cannot match. -/
theorem langBarMatch_none_of_no_bb (d : List Char) (h : hasBB d = false) :
    langBarMatch d = none := by
  cases hl : langBarMatch d with
  | none => rfl
  | some tail =>
    obtain ⟨u, hd⟩ := langBarMatch_some_eq d tail hl
    rw [hd, hasBB_explicit] at h
    exact Bool.noConfusion h

/-- The substitution when the regex head matches. -/
theorem subLang_eq_tail (l tail : List Char)
    (h : langBarMatch (l.dropWhile fun c => !isWordC c) = some tail) :
    subLang l = tail := by
  unfold subLang
  rw [h]

/-- The substitution when the regex head does not match. -/
theorem subLang_eq_self (l : List Char)
    (h : langBarMatch (l.dropWhile fun c => !isWordC c) = none) :
    subLang l = l := by
  unfold subLang
  rw [h]

/-- The substitution leaves a double-bar-free string unchanged. -/
theorem subLang_no_bb (l : List Char) (h : hasBB l = false) : subLang l = l := by
  apply subLang_eq_self
  apply langBarMatch_none_of_no_bb
  by_contra hx
  have hx' : hasBB (l.dropWhile fun c => !isWordC c) = true := by
    revert hx; cases hasBB (l.dropWhile fun c => !isWordC c) <;> simp
  have hbl : hasBB l = true :=
    hasBB_mono _ l ( List.IsSuffix.isInfix (List.dropWhile_suffix _)) hx'
  rw [h] at hbl
  exact Bool.noConfusion hbl

/-- The split step when no double bar occurs. -/
theorem step2_of_none (line : List Char) (h : splitBB line = none) :
    step2 line = line := by
  unfold step2
  rw [h]

/-- The split step when the part before the first double bar is a language
code. -/
theorem step2_of_some_lang (line pre rest : List Char)
    (h : splitBB line = some (pre, rest)) (hl : isLangCode (pyStrip pre) = true) :
    step2 line = pyStrip rest := by
  unfold step2
  rw [h]
  simp [hl]

/-- The split step when the part before the first double bar is not a
language code. -/
theorem step2_of_some_notlang (line pre rest : List Char)
    (h : splitBB line = some (pre, rest)) (hl : isLangCode (pyStrip pre) = false) :
    step2 line = line := by
  unfold step2
  rw [h]
  simp [hl]

/-- On a stripped string without a double bar the whole per-line core is the
identity. -/
theorem transformCore_no_bb (t : List Char) (hst : pyStrip t = t)
    (hbt : hasBB t = false) : transformCore t = t := by
  have hsp : splitBB t = none := by
    have hiso := splitBB_isSome_eq_hasBB t
    rw [hbt] at hiso
    cases hsb : splitBB t with
    | none => rfl
    | some q => rw [hsb] at hiso; simp at hiso
  unfold transformCore
  rw [step2_of_none t hsp, subLang_no_bb t hbt, hst]

/-- The per-line core is idempotent on stripped lines with at most one
double bar. -/
theorem transformCore_twice (t : List Char) (hst : pyStrip t = t)
    (h1 : atMostOneBB t = true) :
    transformCore (transformCore t) = transformCore t := by
  cases hsp : splitBB t with
  | none =>
    have hbt : hasBB t = false := by
      have hiso := splitBB_isSome_eq_hasBB t
      rw [hsp] at hiso
      simpa using hiso.symm
    rw [transformCore_no_bb t hst hbt]
    exact transformCore_no_bb t hst hbt
  | some q =>
    obtain ⟨pre, rest⟩ := q
    have hbr : hasBB rest = false := by
      unfold atMostOneBB at h1
      rw [hsp] at h1
      simpa using h1
    by_cases hl : isLangCode (pyStrip pre) = true
    · have hbpr : hasBB (pyStrip rest) = false := by
        by_contra hx
        have hx' : hasBB (pyStrip rest) = true := by
          revert hx; cases hasBB (pyStrip rest) <;> simp
        have hc := hasBB_mono _ rest (pyStrip_within rest) hx'
        rw [hbr] at hc
        exact Bool.noConfusion hc
      have hct : transformCore t = pyStrip rest := by
        unfold transformCore
        rw [step2_of_some_lang t pre rest hsp hl, subLang_no_bb _ hbpr,
          pyStrip_idem]
      rw [hct]
      exact transformCore_no_bb _ (pyStrip_idem rest) hbpr
    · have hl' : isLangCode (pyStrip pre) = false := by
        revert hl; cases isLangCode (pyStrip pre) <;> simp
      cases hlm : langBarMatch (t.dropWhile fun c => !isWordC c) with
      | some tail =>
        obtain ⟨u, hu⟩ := langBarMatch_some_eq _ tail hlm
        have htw : t = ((t.takeWhile fun c => !isWordC c) ++ u)
            ++ '|' :: '|' :: tail := by
          conv_lhs => rw [← List.takeWhile_append_dropWhile
            (p := fun c => !isWordC c) (l := t), hu]
          rw [List.append_assoc]
        have hbtail : hasBB tail = false := by
          by_contra hx
          have hx' : hasBB tail = true := by
            revert hx; cases hasBB tail <;> simp
          have hsp2 : splitBB (((t.takeWhile fun c => !isWordC c) ++ u)
              ++ '|' :: '|' :: tail) = some (pre, rest) := by
            rw [← htw]; exact hsp
          have hc := splitBB_tail_hasBB _ tail (pre, rest) hsp2 hx'
          rw [hbr] at hc
          exact Bool.noConfusion hc
        have hbpt : hasBB (pyStrip tail) = false := by
          by_contra hx
          have hx' : hasBB (pyStrip tail) = true := by
            revert hx; cases hasBB (pyStrip tail) <;> simp
          have hc := hasBB_mono _ tail (pyStrip_within tail) hx'
          rw [hbtail] at hc
          exact Bool.noConfusion hc
        have hct : transformCore t = pyStrip tail := by
          unfold transformCore
          rw [step2_of_some_notlang t pre rest hsp hl', subLang_eq_tail t tail hlm]
        rw [hct]
        exact transformCore_no_bb _ (pyStrip_idem tail) hbpt
      | none =>
        have hct : transformCore t = t := by
          unfold transformCore
          rw [step2_of_some_notlang t pre rest hsp hl', subLang_eq_self t hlm, hst]
        rw [hct]
        exact hct

/-- The per-line transformation is idempotent on lines whose stripped form
has at most one double bar. -/
theorem transformLine_twice (l : List Char)
    (h1 : atMostOneBB (pyStrip l) = true) :
    transformLine (transformLine l) = transformLine l := by
  unfold transformLine
  have hsc : pyStrip (transformCore (pyStrip l)) = transformCore (pyStrip l) := by
    unfold transformCore
    exact pyStrip_idem _
  rw [hsc]
  exact transformCore_twice (pyStrip l) (pyStrip_idem l) h1

/-- The substitution result is an infix of its input. -/
theorem subLang_within (l : List Char) : subLang l <:+: l := by
  cases hlm : langBarMatch (l.dropWhile fun c => !isWordC c) with
  | none =>
    rw [subLang_eq_self l hlm]
  | some tail =>
    rw [subLang_eq_tail l tail hlm]
    obtain ⟨u, hu⟩ := langBarMatch_some_eq _ tail hlm
    have h1 : tail <:+ (l.dropWhile fun c => !isWordC c) := by
      rw [hu]
      exact ⟨u ++ ['|', '|'], by simp⟩
    exact List.IsSuffix.isInfix (h1.trans (List.dropWhile_suffix _))

/-- The split step's result is an infix of its input. -/
theorem step2_within (line : List Char) : step2 line <:+: line := by
  cases hsp : splitBB line with
  | none =>
    rw [step2_of_none line hsp]
  | some q =>
    obtain ⟨pre, rest⟩ := q
    by_cases hl : isLangCode (pyStrip pre) = true
    · rw [step2_of_some_lang line pre rest hsp hl]
      have hdec := splitBB_some_eq line (pre, rest) hsp
      have h1 : rest <:+ line := ⟨pre ++ ['|', '|'], by rw [hdec]; simp⟩
      exact (pyStrip_within rest).trans ( List.IsSuffix.isInfix h1)
    · have hl' : isLangCode (pyStrip pre) = false := by
        revert hl; cases isLangCode (pyStrip pre) <;> simp
      rw [step2_of_some_notlang line pre rest hsp hl']

/-- The transformed line is an infix of the original line. -/
theorem transformLine_within (l : List Char) : transformLine l <:+: l := by
  unfold transformLine transformCore
  exact (pyStrip_within _).trans ((subLang_within _).trans
    ((step2_within _).trans (pyStrip_within l)))

/-- The transformed line is already stripped. -/
theorem transformLine_stripped (l : List Char) :
    pyStrip (transformLine l) = transformLine l := by
  unfold transformLine transformCore
  exact pyStrip_idem _

/-- Every surviving line of the filtering loop is the transformation of an
input line and triggers neither the drop nor the break marker. -/
theorem cleanLines_mem (ls : List (List Char)) :
    ∀ r ∈ cleanLines ls, (∃ l, l ∈ ls ∧ r = transformLine l)
      ∧ isDropLine (pyLower r) = false ∧ isBreakLine (pyLower r) = false := by
  induction ls with
  | nil => intro r hr; simp [cleanLines] at hr
  | cons l ls ih =>
    intro r hr
    simp only [cleanLines] at hr
    by_cases hd : isDropLine (pyLower (transformLine l)) = true
    · rw [if_pos hd] at hr
      obtain ⟨⟨l0, hl0, hrt⟩, h2, h3⟩ := ih r hr
      exact ⟨⟨l0, List.mem_cons_of_mem l hl0, hrt⟩, h2, h3⟩
    · have hd' : isDropLine (pyLower (transformLine l)) = false := by
        revert hd; cases isDropLine (pyLower (transformLine l)) <;> simp
      rw [hd', if_neg (by simp)] at hr
      by_cases hb : isBreakLine (pyLower (transformLine l)) = true
      · rw [if_pos hb] at hr
        simp at hr
      · have hb' : isBreakLine (pyLower (transformLine l)) = false := by
          revert hb; cases isBreakLine (pyLower (transformLine l)) <;> simp
        rw [hb', if_neg (by simp)] at hr
        rcases List.mem_cons.mp hr with rfl | hr'
        · exact ⟨⟨l, List.mem_cons_self l ls, rfl⟩, hd', hb'⟩
        · obtain ⟨⟨l0, hl0, hrt⟩, h2, h3⟩ := ih r hr'
          exact ⟨⟨l0, List.mem_cons_of_mem l hl0, hrt⟩, h2, h3⟩

/-- The filtering loop is the identity on lines that are fixed by the
transformation and trigger neither marker. -/
theorem cleanLines_fixed (ms : List (List Char))
    (h : ∀ r ∈ ms, transformLine r = r ∧ isDropLine (pyLower r) = false
      ∧ isBreakLine (pyLower r) = false) :
    cleanLines ms = ms := by
  induction ms with
  | nil => rfl
  | cons m ms ih =>
    obtain ⟨hm, hd, hb⟩ := h m (List.mem_cons_self m ms)
    have ih' := ih (fun r hr => h r (List.mem_cons_of_mem m hr))
    simp only [cleanLines, hm, hd, hb, if_false, ih']
    simp

/-- Splitting never produces an empty list of lines. -/
theorem splitNL_ne_nil (s : List Char) : splitNL s ≠ [] := by
  cases s with
  | nil => simp [splitNL]
  | cons c cs =>
    rw [splitNL]
    by_cases h : c = '\n'
    · simp [h]
    · rw [if_neg h]
      cases splitNL cs <;> simp

/-- Lines produced by splitting contain no newline. -/
theorem splitNL_no_nl (s : List Char) :
    ∀ l ∈ splitNL s, ∀ c ∈ l, c ≠ '\n' := by
  induction s with
  | nil =>
    intro l hl c hc
    simp [splitNL] at hl
    subst hl
    simp at hc
  | cons a s ih =>
    intro l hl c hc
    rw [splitNL] at hl
    by_cases ha : a = '\n'
    · rw [if_pos ha] at hl
      rcases List.mem_cons.mp hl with rfl | hl'
      · simp at hc
      · exact ih l hl' c hc
    · rw [if_neg ha] at hl
      cases hspl : splitNL s with
      | nil => exact absurd hspl (splitNL_ne_nil s)
      | cons h0 t0 =>
        rw [hspl] at hl
        rcases List.mem_cons.mp hl with rfl | hl'
        · rcases List.mem_cons.mp hc with rfl | hc'
          · exact ha
          · exact ih h0 (by rw [hspl]; exact List.mem_cons_self h0 t0) c hc'
        · exact ih l (by rw [hspl]; exact List.mem_cons_of_mem h0 hl') c hc

/-- Splitting a newline-free string yields that single line. -/
theorem splitNL_of_no_nl (a : List Char) (h : ∀ c ∈ a, c ≠ '\n') :
    splitNL a = [a] := by
  induction a with
  | nil => rfl
  | cons c a' ih =>
    rw [splitNL, if_neg (h c (List.mem_cons_self c a')),
      ih (fun x hx => h x (List.mem_cons_of_mem c hx))]

/-- Splitting after a newline-free head line. -/
theorem splitNL_append (a m : List Char) (h : ∀ c ∈ a, c ≠ '\n') :
    splitNL (a ++ '\n' :: m) = a :: splitNL m := by
  induction a with
  | nil => rw [List.nil_append, splitNL, if_pos rfl]
  | cons c a' ih =>
    rw [List.cons_append, splitNL, if_neg (h c (List.mem_cons_self c a')),
      ih (fun x hx => h x (List.mem_cons_of_mem c hx))]

/-- Splitting inverts joining for newline-free lines. -/
theorem splitNL_joinNL : ∀ (ls : List (List Char)), ls ≠ [] →
    (∀ l ∈ ls, ∀ c ∈ l, c ≠ '\n') → splitNL (joinNL ls) = ls
  | [], h0, _ => absurd rfl h0
  | [a], _, h => by
      show splitNL a = [a]
      exact splitNL_of_no_nl a (fun c hc => h a (by simp) c hc)
  | a :: b :: ls', _, h => by
      have hja : joinNL (a :: b :: ls') = a ++ '\n' :: joinNL (b :: ls') := rfl
      rw [hja, splitNL_append a _ (fun c hc => h a (by simp) c hc),
        splitNL_joinNL (b :: ls') (by simp)
          (fun l hl c hc => h l (List.mem_cons_of_mem a hl) c hc)]

/-- The line splitter inverts joining for newline-free lines whose last line
is non-empty. -/
theorem pySplitlines_joinNL (ls : List (List Char)) (h0 : ls ≠ [])
    (h : ∀ l ∈ ls, ∀ c ∈ l, c ≠ '\n')
    (hlast : ls.getLast? ≠ some []) :
    pySplitlines (joinNL ls) = ls := by
  have hjoin : ¬(joinNL ls = []) := by
    cases ls with
    | nil => exact absurd rfl h0
    | cons a ls' =>
      cases ls' with
      | nil =>
        show ¬(a = [])
        intro hae
        exact hlast (by rw [hae]; rfl)
      | cons b ls'' =>
        show ¬(a ++ '\n' :: joinNL (b :: ls'') = [])
        simp
  unfold pySplitlines
  rw [if_neg hjoin, splitNL_joinNL ls h0 h, if_neg hlast]

/-- The cleaning pipeline is idempotent at the character-list level on
inputs whose stripped lines have at most one double bar. -/
theorem cleanL_idem (x : List Char)
    (h : ∀ l ∈ pySplitlines x, atMostOneBB (pyStrip l) = true) :
    cleanL (cleanL x) = cleanL x := by
  have hsub : ∀ l ∈ pySplitlines x, l ∈ splitNL x := by
    intro l hl
    unfold pySplitlines at hl
    by_cases hx : x = []
    · rw [if_pos hx] at hl; simp at hl
    · rw [if_neg hx] at hl
      by_cases hlast : (splitNL x).getLast? = some []
      · rw [if_pos hlast] at hl
        exact (List.dropLast_sublist _).subset hl
      · rw [if_neg hlast] at hl
        exact hl
  have hfacts : ∀ r ∈ trimEnds isBlankL (cleanLines (pySplitlines x)),
      transformLine r = r ∧ isDropLine (pyLower r) = false
        ∧ isBreakLine (pyLower r) = false ∧ pyStrip r = r
        ∧ (∀ c ∈ r, c ≠ '\n') := by
    intro r hr
    have hr0 : r ∈ cleanLines (pySplitlines x) :=
      (trimEnds_within isBlankL _).subset hr
    obtain ⟨⟨l, hl, rfl⟩, hd, hb⟩ := cleanLines_mem _ _ hr0
    refine ⟨transformLine_twice l (h l hl), hd, hb, transformLine_stripped l, ?_⟩
    intro c hc
    exact splitNL_no_nl x l (hsub l hl) c ((transformLine_within l).subset hc)
  by_cases hout : trimEnds isBlankL (cleanLines (pySplitlines x)) = []
  · have hx0 : cleanL x = [] := by
      unfold cleanL
      rw [hout]
      rfl
    rw [hx0]
    rfl
  · have hlastV := trimEnds_last_not isBlankL (cleanLines (pySplitlines x)) hout
    have hlastmem : (trimEnds isBlankL (cleanLines (pySplitlines x))).getLast hout
        ∈ trimEnds isBlankL (cleanLines (pySplitlines x)) := List.getLast_mem hout
    obtain ⟨-, -, -, hstrip, -⟩ := hfacts _ hlastmem
    have hlastne : (trimEnds isBlankL (cleanLines (pySplitlines x))).getLast hout
        ≠ [] := by
      intro he
      apply hlastV
      rw [he]
      decide
    have hlastq : (trimEnds isBlankL (cleanLines (pySplitlines x))).getLast?
        ≠ some [] := by
      rw [List.getLast?_eq_getLast _ hout]
      intro he
      exact hlastne (Option.some.inj he)
    have hcl : cleanL x
        = joinNL (trimEnds isBlankL (cleanLines (pySplitlines x))) := rfl
    rw [hcl]
    unfold cleanL
    rw [pySplitlines_joinNL _ hout (fun l hl c hc => (hfacts l hl).2.2.2.2 c hc)
        hlastq,
      cleanLines_fixed _ (fun r hr =>
        ⟨(hfacts r hr).1, (hfacts r hr).2.1, (hfacts r hr).2.2.1⟩),
      trimEnds_idem]

/-- Claim C3 fails on the code: cleaning is not idempotent.  On the one-line
input "en||de||fr||x" the first pass removes two stacked language-code
prefixes (one via split, one via the regex), leaving "fr||x", and a second
pass removes a third. -/
theorem c3_counterexample :
    clean_lyrics (clean_lyrics "en||de||fr||x") ≠ clean_lyrics "en||de||fr||x" := by
  decide

/-- Amended C3: cleaning is idempotent on every input in which each line,
after trimming surrounding whitespace, contains at most one occurrence of
the "||" separator. -/
theorem c3_amended_idempotent (s : String) (h : linesAtMostOneBB s = true) :
    clean_lyrics (clean_lyrics s) = clean_lyrics s := by
  unfold clean_lyrics
  rw [show ((cleanL s.toList).asString).toList = cleanL s.toList from rfl]
  refine congrArg List.asString (cleanL_idem s.toList ?_)
  intro l hl
  unfold linesAtMostOneBB at h
  exact List.all_eq_true.mp h l hl

/-- Witness for the amended C3 at a concrete input with one language-code
marker. -/
theorem c3_amended_idempotent_witness :
    linesAtMostOneBB "en||Hello\nWorld" = true
  ∧ clean_lyrics (clean_lyrics "en||Hello\nWorld") = clean_lyrics "en||Hello\nWorld" :=
  ⟨by decide, c3_amended_idempotent "en||Hello\nWorld" (by decide)⟩
end LyricsAdder
